import Mathlib

/-!
# olive: content negotiation, safe encoding and the abort path

A shallow embedding of the request/response negotiation code of the `olive`
package (`marshal.go`, `codec.go`, `v2/error.go`, `response.go`, `recover.go`)
together with theorems about it.

Conventions of the embedding

* Go strings are lists of characters (`Str`); the separators the code splits on
  are ASCII, so splitting on characters agrees with splitting on bytes.
* `float64` scores are values of `F64`: the finite values are rationals (every
  finite `float64` is one; the two zeros compare equal in Go and are
  identified), plus the two infinities and NaN. The code only compares
  scores, it never does arithmetic on them.
* Library functions whose behaviour the code does not fix are parameters:
  `strconv.ParseFloat` (`parseFloat`), `strings.ToLower` (`toLower`),
  `param.Parse` (`parseQuery`).
* Effects (the response writer, the logger, calls of the underlying encoders)
  are explicit in a `World` that is passed through.
* A call that can panic returns the value raised next to the world it leaves.
  The one library panic on these paths is that of `WriteHeader` in `net/http`,
  which rejects a status code outside 100..999 while the header has not been
  written.
-/

namespace Olive

/-- A Go string. -/
abbrev Str := List Char

/-! ## Strings: `strings.TrimSpace`, `strings.SplitN`, `strings.Split` -/

/-- The characters `unicode.IsSpace` reports as white space. -/
def isSpace (c : Char) : Bool :=
  let n := c.toNat
  n = 0x09 || n = 0x0A || n = 0x0B || n = 0x0C || n = 0x0D || n = 0x20 ||
  n = 0x85 || n = 0xA0 || n = 0x1680 || (0x2000 ≤ n && n ≤ 0x200A) ||
  n = 0x2028 || n = 0x2029 || n = 0x202F || n = 0x205F || n = 0x3000

/-- Embeds `strings.TrimSpace`: drop leading and trailing white space. -/
def TrimSpace (s : Str) : Str :=
  ((s.dropWhile isSpace).reverse.dropWhile isSpace).reverse

/-- Whether `s` begins with `sep` (`strings.HasPrefix`). -/
def startsWith : Str → Str → Bool
  | _, [] => true
  | [], _ :: _ => false
  | c :: s, d :: sep => c == d && startsWith s sep

/-- Embeds `strings.SplitN(str, sep, 2)` for a non-empty separator: the text before
the first occurrence of `sep` and, when `sep` occurs, the text after it. -/
def SplitN2 (sep : Str) : Str → Str × Option Str
  | [] => ([], none)
  | c :: s =>
    if startsWith (c :: s) sep then ([], some ((c :: s).drop sep.length))
    else
      match SplitN2 sep s with
      | (a, b) => (c :: a, b)

/-- Embeds `split` of `marshal.go`: split a string in two parts, cleaning any
white space; the second part is empty when the separator does not occur. -/
def split (str sep : Str) : Str × Str :=
  match SplitN2 sep str with
  | (p0, none) => (TrimSpace p0, [])
  | (p0, some p1) => (TrimSpace p0, TrimSpace p1)

/-- Embeds `strings.Split(s, sep)` for a one-character separator: the fields between
the occurrences of `sep`; never the empty list. -/
def Split (sep : Char) : Str → List Str
  | [] => [[]]
  | c :: s =>
    if c = sep then [] :: Split sep s
    else
      match Split sep s with
      | [] => [[c]]
      | f :: fs => (c :: f) :: fs

/-! ## `float64` scores -/

/-- The values of a `float64`, as far as comparisons can tell them apart. -/
inductive F64 where
  | nan
  | negInf
  | fin (x : ℚ)
  | posInf
  deriving DecidableEq

namespace F64

/-- The Go comparison `a < b` on `float64`: false whenever one side is NaN. -/
def lt : F64 → F64 → Bool
  | nan, _ => false
  | _, nan => false
  | _, negInf => false
  | negInf, _ => true
  | posInf, _ => false
  | fin _, posInf => true
  | fin x, fin y => decide (x < y)

/-- The Go comparison `a > b`. -/
def gt (a b : F64) : Bool := lt b a

/-- The Go comparison `a == b` on `float64`: NaN equals nothing. -/
def eq : F64 → F64 → Bool
  | nan, _ => false
  | _, nan => false
  | a, b => decide (a = b)

/-- The constant `0`, the zero value of a `float64` variable. -/
def zero : F64 := fin 0

/-- The constant `1`. -/
def one : F64 := fin 1

end F64

/-! ## `accepts`: the RFC 2616 header parser (simple version) -/

/-- The test on the first token of a field in `accepts`: the token
`type/subtype`, `type/*` or `*/*` matches the candidate `cGroup/cType`. -/
def tokenMatches (cGroup cType token : Str) : Bool :=
  match split token "/".toList with
  | (aGroup, aType) =>
    if cType = aType ∨ aType = "*".toList then
      if (aGroup = "*".toList ∧ aType = "*".toList) ∨ cGroup = aGroup then true
      else false
    else false

/-- The inner loop of `accepts` over the tokens after the first one
(`key=value` parameters): returns `match` and the updated `q`. A parameter
other than `q` is skipped; the first `q` ends the loop, with `match` set when
its value parses. -/
def scanParams (parseFloat : Str → Option F64) : List Str → F64 → Bool × F64
  | [], q => (false, q)
  | token :: rest, q =>
    match split token "=".toList with
    | (k, v) =>
      if k ≠ "q".toList then scanParams parseFloat rest q
      else
        match parseFloat v with
        | none => (false, q)
        | some f => (true, if F64.lt q f then f else q)

/-- One iteration of the outer loop of `accepts`: the inner loop over
`strings.Split(field, ";")`. Returns `found`, `match` and the updated `q`. -/
def scanField (parseFloat : Str → Option F64) (cGroup cType field : Str) (q : F64) :
    Bool × Bool × F64 :=
  match Split ';' field with
  | [] => (false, false, q)
  | token :: params =>
    if tokenMatches cGroup cType token then
      match scanParams parseFloat params q with
      | (mtch, q1) => (true, mtch, q1)
    else (false, false, q)

/-- The outer loop of `accepts` over the fields of the header, from the
running value `q`: a field that is found without a parsed `q` sets the score
to 1 and ends the loop. -/
def scanFields (parseFloat : Str → Option F64) (cGroup cType : Str) : List Str → F64 → F64
  | [], q => q
  | field :: rest, q =>
    match scanField parseFloat cGroup cType field q with
    | (found, mtch, q1) =>
      if found && !mtch then F64.one
      else scanFields parseFloat cGroup cType rest q1

/-- Embeds `accepts(a, ctype)` of `marshal.go`. -/
def accepts (parseFloat : Str → Option F64) (a ctype : Str) : F64 :=
  if a = ctype ∨ a = "*/*".toList ∨ a = [] then F64.one
  else
    match split ctype "/".toList with
    | (cGroup, cType) => scanFields parseFloat cGroup cType (Split ',' a) F64.zero

/-- A small stand-in for `strconv.ParseFloat` used at concrete inputs: it
knows the decimal literals that occur in the examples below and rejects
everything else. On these literals it orders the results as `ParseFloat`
does. -/
def parseFloatSample (v : Str) : Option F64 :=
  if v = "0".toList then some (F64.fin 0)
  else if v = "0.5".toList then some (F64.fin (mkRat 1 2))
  else if v = "0.9".toList then some (F64.fin (mkRat 9 10))
  else if v = "1".toList then some (F64.fin 1)
  else if v = "2".toList then some (F64.fin 2)
  else if v = "-1".toList then some (F64.fin (-1))
  else if v = "NaN".toList then some F64.nan
  else none

/-! ## Data model: errors, payloads, log entries (`v2/error.go`) -/

mutual
/-- A value stored in the details map `M` (an `interface{}`): a string, a
list of strings, or an error value. -/
inductive Val where
  | str (s : Str)
  | strs (l : List Str)
  | err (e : GoError)
/-- A Go `error` value: either an `*Error` of this package or any other
error, known by the text its `Error()` method returns. -/
inductive GoError where
  | other (msg : Str)
  | api (e : Error)
/-- The struct `Error`: `ErrorCode`, `StatusCode`, `Message` and `Details`
(`none` is the nil map). -/
inductive Error where
  | mk (ErrorCode : Int) (StatusCode : Int) (Message : Str)
      (Details : Option (List (Str × Val)))
end

namespace Error

/-- Field `ErrorCode`. -/
def ErrorCode : Error → Int
  | mk c _ _ _ => c

/-- Field `StatusCode`. -/
def StatusCode : Error → Int
  | mk _ s _ _ => s

/-- Field `Message`. -/
def Message : Error → Str
  | mk _ _ m _ => m

/-- Field `Details`. -/
def Details : Error → Option (List (Str × Val))
  | mk _ _ _ d => d

/-- The assignment `apiErr.Message = m`. -/
def setMessage : Error → Str → Error
  | mk c s _ d, m => mk c s m d

/-- The assignment `apiErr.Details = d`. -/
def setDetails : Error → Option (List (Str × Val)) → Error
  | mk c s m _, d => mk c s m d

end Error

/-- The method `Error()` of an error value; for an `*Error` it is its
`Message`. -/
def GoError.errorString : GoError → Str
  | .other msg => msg
  | .api e => e.Message

/-- A value handed to an encoder: an application value (known by a
description) or an `*Error`. -/
inductive Payload where
  | data (d : Str)
  | apiError (e : Error)

/-- Log levels of log15. -/
inductive Lvl where
  | crit
  | error
  | warn
  | info
  | debug
  deriving DecidableEq

/-- One entry written to the request logger. -/
structure LogEntry where
  lvl : Lvl
  msg : Str
  ctx : List (Str × Val)

/-! ## The response writer, the world, encoders (`codec.go`) -/

/-- A value raised by `panic`: the `abort{}` signal or anything else, known
by the text it prints as. -/
inductive Panic where
  | abort
  | other (cause : Str)
  deriving DecidableEq

/-- The test `checkWriteHeaderCode` of `net/http`: a status code is accepted
when it lies between 100 and 999. -/
def validStatusCode (s : Int) : Bool := decide (100 ≤ s ∧ s ≤ 999)

/-- The value `net/http` panics with when `WriteHeader` is given a code it
does not accept. -/
def invalidWriteHeaderCode (s : Int) : Panic :=
  Panic.other ("invalid WriteHeader code ".toList ++ (toString s).toList)

/-- The state of martini's `ResponseWriter` and of the `net/http` writer it
wraps: the status martini has recorded (0 until a header is written), the body
written so far, the `Content-Type` response header, and whether `net/http` has
written the header (its `wroteHeader`). -/
structure ResponseWriter where
  status : Int
  body : Str
  contentType : Str
  wroteHeader : Bool

namespace ResponseWriter

/-- Embeds `Written()`: martini's response writer reports whether a status
has been recorded (`status != 0`). -/
def Written (rw : ResponseWriter) : Bool := decide (rw.status ≠ 0)

/-- Embeds `WriteHeader(s)`: martini hands the code to the `WriteHeader` of
`net/http` and records it as the status once that call has returned. When
`net/http` has not yet written the header it panics for a code outside
100..999, and the status stays as it was; when it has, it ignores the call
without looking at the code. -/
def WriteHeader (rw : ResponseWriter) (s : Int) : Except Panic ResponseWriter :=
  if rw.wroteHeader = false ∧ validStatusCode s = false then
    Except.error (invalidWriteHeaderCode s)
  else Except.ok { rw with status := s, wroteHeader := true }

/-- Embeds `Write(b)`: martini calls `WriteHeader(200)` first when no status is
recorded (a code `net/http` accepts), then hands the bytes to `net/http`, which
writes the header if it has not and appends to the body. -/
def Write (rw : ResponseWriter) (b : Str) : ResponseWriter :=
  let rw1 := if rw.Written then rw else { rw with status := 200 }
  { rw1 with body := rw1.body ++ b, wroteHeader := true }

/-- A response to which nothing has been written. -/
def fresh : ResponseWriter :=
  { status := 0, body := [], contentType := [], wroteHeader := false }

end ResponseWriter

/-- What a request has done so far: the response writer, the entries of the
request logger, the values the underlying encoders were invoked on and the
inputs handed to `param.Parse` or to a decoder. -/
structure World where
  w : ResponseWriter
  log : List LogEntry
  calls : List Payload
  decodes : List (Str × Str)

namespace World

/-- A request that has written, logged, encoded and decoded nothing. -/
def fresh : World := { w := ResponseWriter.fresh, log := [], calls := [], decodes := [] }

/-- A call `l.Error(msg, ctx)`, `l.Warn(msg, ctx)`, ... of the logger. -/
def logAt (wld : World) (lvl : Lvl) (msg : Str) (ctx : List (Str × Val)) : World :=
  { wld with log := wld.log ++ [{ lvl := lvl, msg := msg, ctx := ctx }] }

/-- The world after a call `w.WriteHeader(s)` that returned: the status is
recorded. -/
def writeHeader (wld : World) (s : Int) : World :=
  { wld with w := { wld.w with status := s, wroteHeader := true } }

/-- The call `w.WriteHeader(s)`: the world it leaves and the value it
panicked with, if it did. -/
def callWriteHeader (wld : World) (s : Int) : World × Option Panic :=
  match wld.w.WriteHeader s with
  | Except.error p => (wld, some p)
  | Except.ok rw => ({ wld with w := rw }, none)

/-- The call `w.Header().Set("Content-Type", ct)`. -/
def setContentType (wld : World) (ct : Str) : World :=
  { wld with w := { wld.w with contentType := ct } }

end World

/-- An encoder function as handed to `encoderFunc`: from the values it was
invoked on before and the value to encode, the chunks it writes to its writer
(one `Write` each) and the error it returns. -/
abbrev RawEncoder := List Payload → Payload → List Str × Option GoError

/-- The ways the package builds an `Encoder`: `encoderFunc(f)` and
`safeEncoder(e, l)`. -/
inductive Encoder where
  | encoderFunc (f : RawEncoder)
  | safeEncoder (e : Encoder)

/-- The fallback value `safeEncoder` encodes when the wrapped encoder failed
with `err`. -/
def safeEncoderFallback (err : GoError) : Error :=
  Error.mk 0 500 "failed to encode response".toList (some [("err".toList, Val.err err)])

/-- Embeds `Encode(wr, v)` on the response writer of the request. For
`encoderFunc(f)` the call is recorded and the chunks are written; for
`safeEncoder(e, l)` it is the closure of `codec.go`. -/
def Encoder.Encode : Encoder → World → Payload → World × Option GoError
  | .encoderFunc f, wld, v =>
    match f wld.calls v with
    | (chunks, err) =>
      ({ wld with w := chunks.foldl ResponseWriter.Write wld.w, calls := wld.calls ++ [v] }, err)
  | .safeEncoder e, wld, v =>
    match e.Encode wld v with
    | (wld1, none) => (wld1, none)
    | (wld1, some err) =>
      let wld2 := wld1.logAt Lvl.error "failed to encode response".toList
        [("err".toList, Val.err err)]
      ((e.Encode wld2 (Payload.apiError (safeEncoderFallback err))).1, some err)

/-- A `ContentEncoder`: an encoder and the content type it produces. -/
structure ContentEncoder where
  ContentType : Str
  Encoder : Encoder

/-! ## The abort path (`v2/error.go`) -/

/-- Embeds `http.StatusText` of `net/http`. -/
def StatusText (code : Int) : Str :=
  (match code with
  | 100 => "Continue" | 101 => "Switching Protocols" | 102 => "Processing"
  | 103 => "Early Hints"
  | 200 => "OK" | 201 => "Created" | 202 => "Accepted"
  | 203 => "Non-Authoritative Information" | 204 => "No Content"
  | 205 => "Reset Content" | 206 => "Partial Content" | 207 => "Multi-Status"
  | 208 => "Already Reported" | 226 => "IM Used"
  | 300 => "Multiple Choices" | 301 => "Moved Permanently" | 302 => "Found"
  | 303 => "See Other" | 304 => "Not Modified" | 305 => "Use Proxy"
  | 307 => "Temporary Redirect" | 308 => "Permanent Redirect"
  | 400 => "Bad Request" | 401 => "Unauthorized" | 402 => "Payment Required"
  | 403 => "Forbidden" | 404 => "Not Found" | 405 => "Method Not Allowed"
  | 406 => "Not Acceptable" | 407 => "Proxy Authentication Required"
  | 408 => "Request Timeout" | 409 => "Conflict" | 410 => "Gone"
  | 411 => "Length Required" | 412 => "Precondition Failed"
  | 413 => "Request Entity Too Large" | 414 => "Request URI Too Long"
  | 415 => "Unsupported Media Type" | 416 => "Requested Range Not Satisfiable"
  | 417 => "Expectation Failed" | 418 => "I\x27m a teapot"
  | 421 => "Misdirected Request" | 422 => "Unprocessable Entity"
  | 423 => "Locked" | 424 => "Failed Dependency" | 425 => "Too Early"
  | 426 => "Upgrade Required" | 428 => "Precondition Required"
  | 429 => "Too Many Requests" | 431 => "Request Header Fields Too Large"
  | 451 => "Unavailable For Legal Reasons"
  | 500 => "Internal Server Error" | 501 => "Not Implemented"
  | 502 => "Bad Gateway" | 503 => "Service Unavailable"
  | 504 => "Gateway Timeout" | 505 => "HTTP Version Not Supported"
  | 506 => "Variant Also Negotiates" | 507 => "Insufficient Storage"
  | 508 => "Loop Detected" | 510 => "Not Extended"
  | 511 => "Network Authentication Required"
  | _ => "").toList

/-- Embeds `internalServerError(err)`. -/
def internalServerError (err : GoError) : Error :=
  Error.mk 0 500 [] (some [("err".toList, Val.str err.errorString)])

/-- The struct `errEncoder`: the negotiated encoder and the debug flag; its
logger `l` and writer `w` are those of the `World`. -/
structure errEncoder where
  enc : Encoder
  debug : Bool

/-- The type assertion `apiErr, ok := err.(*Error)` of `abort` followed by
the wrapping of an error that is not an `*Error`. -/
def asApiError (err : GoError) : Error × Bool :=
  match err with
  | .api a => (a, true)
  | .other _ => (internalServerError err, false)

/-- The `*Error` that `abort` ends up with: the asserted or wrapped error,
its empty `Message` filled with the reason phrase, and its `Details` set to
nil for a wrapped error with status 500 outside debug mode. -/
def abortError (debug : Bool) (err : GoError) : Error :=
  match asApiError err with
  | (apiErr, ok) =>
    let apiErr1 :=
      if apiErr.Message = [] then apiErr.setMessage (StatusText apiErr.StatusCode) else apiErr
    if apiErr1.StatusCode = 500 ∧ ok = false ∧ debug = false then apiErr1.setDetails none
    else apiErr1

/-- The context `logDetails` that `abort` logs: the details of the asserted
or wrapped error, taken before any suppression, or the empty context when the
details are nil. -/
def abortLogDetails (err : GoError) : List (Str × Val) :=
  match (asApiError err).1.Details with
  | some d => d
  | none => []

/-- The level `abort` logs at: `l.Error` for status 500, `l.Warn` otherwise. -/
def abortLogLvl (err : GoError) : Lvl :=
  if (asApiError err).1.StatusCode = 500 then Lvl.error else Lvl.warn

/-- Embeds `(*errEncoder).abort(err)`, statement by statement: the type
assertion or wrapping, `logDetails` taken from the details, the `Message`
filled with the reason phrase, the log function chosen by the status and the
details set to nil for a wrapped error with status 500 outside debug mode, the
log call, and the guarded write. The result is the world left behind and the
value the call panicked with, if `WriteHeader` did not accept the status
code; the encoder is not reached in that case. -/
def errEncoder.abort (e : errEncoder) (wld : World) (err : GoError) :
    World × Option Panic :=
  match asApiError err with
  | (apiErr0, ok) =>
    let logDetails : List (Str × Val) :=
      match apiErr0.Details with
      | some d => d
      | none => []
    let apiErr1 :=
      if apiErr0.Message = [] then apiErr0.setMessage (StatusText apiErr0.StatusCode)
      else apiErr0
    let logFn := if apiErr1.StatusCode = 500 then Lvl.error else Lvl.warn
    let apiErr2 :=
      if apiErr1.StatusCode = 500 ∧ ok = false ∧ e.debug = false then apiErr1.setDetails none
      else apiErr1
    let wld1 := wld.logAt logFn apiErr2.Message logDetails
    if wld1.w.Written then (wld1, none)
    else
      match wld1.callWriteHeader apiErr2.StatusCode with
      | (wld2, some p) => (wld2, some p)
      | (wld2, none) => ((e.enc.Encode wld2 (Payload.apiError apiErr2)).1, none)

/-- Embeds `(*errEncoder).Abort(err)`: `abort`, then `panic(abort{})`. The result is
the world left behind and the value raised, which is the panic of `abort`
itself when `abort` did not return; the call never returns normally. -/
def errEncoder.Abort (e : errEncoder) (wld : World) (err : GoError) : World × Panic :=
  match e.abort wld err with
  | (wld1, some p) => (wld1, p)
  | (wld1, none) => (wld1, Panic.abort)

/-! ## Response negotiation (`marshalMiddleware`, `marshal.go`) -/

/-- What the middleware reads of an `http.Request`: the method, the `Accept`
and `Content-Type` headers (empty when absent), the raw URL query and the
body. -/
structure Request where
  Method : Str
  Accept : Str
  ContentType : Str
  Query : Str
  Body : Str

/-- Embeds `notAcceptable(acceptHeader, encoders)`. -/
def notAcceptable (acceptHeader : Str) (encoders : List ContentEncoder) : Error :=
  Error.mk 0 406 "unsupported request Accept header".toList
    (some [("accept-header".toList, Val.str acceptHeader),
           ("supported".toList, Val.strs (encoders.map ContentEncoder.ContentType))])

/-- The selection loop of `marshalMiddleware` from the running pair
`(bestQ, bestEncoder)`; `none` is the zero `ContentEncoder` the variable
starts with. -/
def selectLoop (parseFloat : Str → Option F64) (accept : Str) :
    List ContentEncoder → F64 × Option ContentEncoder → F64 × Option ContentEncoder
  | [], best => best
  | enc :: rest, (bestQ, bestEncoder) =>
    let q := accepts parseFloat accept enc.ContentType
    if F64.gt q bestQ then selectLoop parseFloat accept rest (q, some enc)
    else selectLoop parseFloat accept rest (bestQ, bestEncoder)

/-- The header value `accept` the middleware works with: `*/*` for an empty
`Accept` header. -/
def effectiveAccept (r : Request) : Str :=
  if r.Accept = [] then "*/*".toList else r.Accept

/-- The pair `(bestQ, bestEncoder)` after the loop of `marshalMiddleware`. -/
def negotiate (parseFloat : Str → Option F64) (encoders : List ContentEncoder)
    (r : Request) : F64 × Option ContentEncoder :=
  selectLoop parseFloat (effectiveAccept r) encoders (F64.zero, none)

/-- What `marshalMiddleware` leaves behind: the world, the error it handed
to `abort` (if it did), the selected `bestEncoder`, which it maps into the
context wrapped in `safeEncoder`, and the value it panicked with, if `abort`
did. -/
structure Marshalled where
  wld : World
  aborted : Option Error
  bestEncoder : Option ContentEncoder
  raised : Option Panic

/-- The handler returned by `marshalMiddleware(encoders)`; `jsonEncoder` is
the encoder function of `codec.go` used to report a failed negotiation. -/
def marshalMiddleware (parseFloat : Str → Option F64) (jsonEncoder : RawEncoder)
    (encoders : List ContentEncoder) (r : Request) (wld : World) : Marshalled :=
  let accept := effectiveAccept r
  match negotiate parseFloat encoders r with
  | (bestQ, bestEncoder) =>
    let bestType : Str :=
      match bestEncoder with
      | some enc => enc.ContentType
      | none => []
    if F64.eq bestQ F64.zero then
      let e : errEncoder := { enc := Encoder.encoderFunc jsonEncoder, debug := false }
      match e.abort (wld.setContentType "application/json".toList)
          (GoError.api (notAcceptable accept encoders)) with
      | (wld1, some p) =>
        { wld := wld1,
          aborted := some (notAcceptable accept encoders),
          bestEncoder := bestEncoder,
          raised := some p }
      | (wld1, none) =>
        { wld := wld1.setContentType bestType,
          aborted := some (notAcceptable accept encoders),
          bestEncoder := bestEncoder,
          raised := none }
    else
      { wld := wld.setContentType bestType, aborted := none, bestEncoder := bestEncoder,
        raised := none }

/-! ## Request decoding (`unmarshalMiddleware`, `getCE`, `marshal.go`) -/

/-- Embeds `getCE(meth, ce)`: the charset of a `Content-Type` value, for the methods
that carry a body. -/
def getCE (toLower : Str → Str) (meth ce : Str) : Str :=
  if ¬ (meth = "POST".toList ∨ meth = "PATCH".toList ∨ meth = "PUT".toList) then []
  else
    let ce1 := (split (toLower ce) ";".toList).2
    let ce2 := (split ce1 "charset=".toList).2
    (split ce2 ";".toList).1

/-- A `Decoder`: from the request body, the decoded parameter (known by a
description) or an error. -/
structure Decoder where
  Decode : Str → Except GoError Str

/-- Embeds `decodeFailure(err)`. -/
def decodeFailure (err : GoError) : Error :=
  Error.mk 0 400 "failed to deserialize request parameter".toList
    (some [("err".toList, Val.err err)])

/-- Embeds `unsupportedMediaType(contentType, decoderMap)`; the keys are listed in
the order of the association list that stands for the map. -/
def unsupportedMediaType (contentType : Str) (decoderMap : List (Str × Decoder)) : Error :=
  Error.mk 0 415 "unsupported request Content-Type".toList
    (some [("content-type".toList, Val.str contentType),
           ("available".toList, Val.strs (decoderMap.map Prod.fst))])

/-- Embeds `unsupportedMediaTypeCE(encoding)`. -/
def unsupportedMediaTypeCE (encoding : Str) : Error :=
  Error.mk 0 415 "unsupported request content encoding charset".toList
    (some [("charset".toList, Val.str encoding),
           ("available".toList, Val.strs ["UTF-8".toList])])

/-- The map lookup `decoders[ct]`. -/
def lookupDecoder (decoders : List (Str × Decoder)) (ct : Str) : Option Decoder :=
  match decoders with
  | [] => none
  | (k, d) :: rest => if k = ct then some d else lookupDecoder rest ct

/-- The handler returned by `unmarshalMiddleware(decoders, inputParam)`.
`hasParam` tells whether `inputParam` is a valid value, `parseQuery` is
`param.Parse` on the URL query. The result is the world left behind and either
the value raised by a panic or the parameter mapped into the context (`none`
when there is no input). An entry of `decodes` records each use of
`param.Parse` (under the key `query`) and of a decoder (under its content
type). -/
def unmarshalMiddleware (toLower : Str → Str) (parseQuery : Str → Except GoError Str)
    (decoders : List (Str × Decoder)) (hasParam : Bool) (e : errEncoder)
    (r : Request) (wld : World) : World × Except Panic (Option Str) :=
  if hasParam = false then (wld, Except.ok none)
  else if r.Method = "GET".toList then
    let wld1 := { wld with decodes := wld.decodes ++ [("query".toList, r.Query)] }
    match parseQuery r.Query with
    | Except.error err =>
      match e.Abort wld1 (GoError.api (decodeFailure err)) with
      | (wld2, p) => (wld2, Except.error p)
    | Except.ok v => (wld1, Except.ok (some v))
  else
    let ce := getCE toLower r.Method r.ContentType
    if ¬ (ce = "utf8".toList ∨ ce = "utf-8".toList ∨ ce = []) then
      match e.Abort wld (GoError.api (unsupportedMediaTypeCE ce)) with
      | (wld2, p) => (wld2, Except.error p)
    else
      let ct := (split r.ContentType ";".toList).1
      match lookupDecoder decoders ct with
      | none =>
        match e.Abort wld (GoError.api (unsupportedMediaType ct decoders)) with
        | (wld2, p) => (wld2, Except.error p)
      | some dec =>
        let wld1 := { wld with decodes := wld.decodes ++ [(ct, r.Body)] }
        match dec.Decode r.Body with
        | Except.error err =>
          match e.Abort wld1 (GoError.api (decodeFailure err)) with
          | (wld2, p) => (wld2, Except.error p)
        | Except.ok v => (wld1, Except.ok (some v))

/-- A lower-casing of ASCII letters, standing for `strings.ToLower` at
concrete ASCII inputs. -/
def toLowerASCII (s : Str) : Str := s.map Char.toLower

/-- An encoder function that writes one chunk and succeeds, standing for an
encoder at concrete inputs. -/
def okEncoder : RawEncoder := fun _ _ => (["ok".toList], none)

/-- An encoder function that writes nothing and fails. -/
def failingEncoder : RawEncoder := fun _ _ => ([], some (GoError.other "boom".toList))

/-- The default encoder list of `New` (`olive.go`), each content type with a
stand-in encoder function. -/
def defaultEncoders : List ContentEncoder :=
  [{ ContentType := "text/html".toList, Encoder := Encoder.encoderFunc okEncoder },
   { ContentType := "application/json".toList, Encoder := Encoder.encoderFunc okEncoder },
   { ContentType := "text/xml".toList, Encoder := Encoder.encoderFunc okEncoder },
   { ContentType := "application/xml".toList, Encoder := Encoder.encoderFunc okEncoder }]

/-! ## Definitions used to state the properties -/

/-- The Go comparison `a <= b`. -/
def F64.le (a b : F64) : Bool := F64.lt a b || F64.eq a b

/-- The larger of two scores, as `if q < f then f else q` computes it. -/
def F64.maxF (q f : F64) : F64 := if F64.lt q f then f else q

/-- The score the negotiator gives a registry entry for a request. -/
def score (parseFloat : Str → Option F64) (r : Request) (enc : ContentEncoder) : F64 :=
  accepts parseFloat (effectiveAccept r) enc.ContentType

/-- A string without white space. -/
def noSpace (s : Str) : Bool := s.all (fun c => !isSpace c)

/-- A plain content type `type/subtype`: it has a `/`, no white space, no
`,` and no `;`, and its subtype is not the wildcard `*`. -/
def plainType (c : Str) : Bool :=
  noSpace c && decide (',' ∉ c) && decide (';' ∉ c) && decide ('/' ∈ c) &&
    decide ((split c "/".toList).2 ≠ "*".toList)

/-- A registry with a parameterised content type after the bare one. -/
def levelEncoders : List ContentEncoder :=
  [{ ContentType := "text/html".toList, Encoder := Encoder.encoderFunc okEncoder },
   { ContentType := "text/html;level=1".toList, Encoder := Encoder.encoderFunc failingEncoder }]

/-- A request with the given method and `Accept` header and nothing else. -/
def requestWith (method accept : Str) : Request :=
  { Method := method, Accept := accept, ContentType := [], Query := [], Body := [] }

/-- The header of the quality example:
`application/json;q=0.5, text/xml;q=0.9`. -/
def qualityHeader : Str := "application/json;q=0.5, text/xml;q=0.9".toList

/-- A registry that lists, after `application/json` and `text/xml`, an entry
whose content type is the text of the quality example header. -/
def headerNamedEncoders : List ContentEncoder :=
  [{ ContentType := "application/json".toList, Encoder := Encoder.encoderFunc okEncoder },
   { ContentType := "text/xml".toList, Encoder := Encoder.encoderFunc okEncoder },
   { ContentType := qualityHeader, Encoder := Encoder.encoderFunc failingEncoder }]

/-- A registry that lists a white-space padded spelling of `text/xml` before
`application/json` and `text/xml`. -/
def paddedEncoders : List ContentEncoder :=
  [{ ContentType := " text/xml".toList, Encoder := Encoder.encoderFunc failingEncoder },
   { ContentType := "application/json".toList, Encoder := Encoder.encoderFunc okEncoder },
   { ContentType := "text/xml".toList, Encoder := Encoder.encoderFunc okEncoder }]

/-! ### The score as the claim words it

The next definitions follow the wording of the specification, not the code:
a field matches a content type, a matching field has a quality, and the score
is the highest quality of the matching fields. -/

/-- A field matches `ctype` when its subtype equals the subtype of `ctype`
or is `*` and, in addition, either its group and subtype are both `*` or its
group equals the group of `ctype`. Group and subtype of a field are those of
its first `;`-separated token. -/
def specFieldMatches (ctype field : Str) : Bool :=
  match Split ';' field with
  | [] => false
  | token :: _ =>
    decide (((split token "/".toList).2 = (split ctype "/".toList).2 ∨
        (split token "/".toList).2 = "*".toList) ∧
      (((split token "/".toList).1 = "*".toList ∧ (split token "/".toList).2 = "*".toList) ∨
        (split token "/".toList).1 = (split ctype "/".toList).1))

/-- The value of the first parameter named `q` among `key=value` tokens. -/
def firstQ : List Str → Option Str
  | [] => none
  | token :: rest =>
    if (split token "=".toList).1 = "q".toList then some (split token "=".toList).2
    else firstQ rest

/-- The quality of a field: the value of its `q` parameter when one is
present and parses as a number, and 1.0 when it has no explicit `q` or its `q`
does not parse. -/
def specFieldQuality (parseFloat : Str → Option F64) (field : Str) : F64 :=
  match firstQ (Split ';' field).tail with
  | none => F64.one
  | some v =>
    match parseFloat v with
    | some f => f
    | none => F64.one

/-- The highest of a list of scores, and 0 for the empty list. -/
def highest : List F64 → F64
  | [] => F64.zero
  | x :: xs => xs.foldl F64.maxF x

/-- The score as the claim words it: the highest quality across the
comma-separated fields of `a` that match `ctype`, and 0 when no field
matches. -/
def specAccepts (parseFloat : Str → Option F64) (a ctype : Str) : F64 :=
  highest (((Split ',' a).filter (specFieldMatches ctype)).map (specFieldQuality parseFloat))

/-- A decoder map with one entry for `application/json`, whose decoder
returns the body as it is. -/
def sampleDecoders : List (Str × Decoder) :=
  [("application/json".toList, { Decode := fun body => Except.ok body })]

/-- A stand-in for `param.Parse` that returns the query as it is. -/
def sampleParseQuery : Str → Except GoError Str := fun q => Except.ok q

/-- An `errEncoder` over the stand-in encoder, debug off. -/
def sampleErrEncoder : errEncoder :=
  { enc := Encoder.safeEncoder (Encoder.encoderFunc okEncoder), debug := false }

/-- A request with the given method, `Content-Type` header and body. -/
def bodyRequest (method contentType body : Str) : Request :=
  { Method := method, Accept := [], ContentType := contentType, Query := [], Body := body }

/-! ## The handler chain: panics, the abort controller, fault recovery
(`v2/error.go`, `recover.go`, `response.go`) -/

/-- What running a stretch of the handler chain does (for instance what
`c.Next()` does inside a handler): the world it leaves and the value it
panicked with, if it did. -/
abbrev Stage := World → World × Option Panic

/-- Two stretches of code one after the other: when the first panics the
stack unwinds and the second does not run. -/
def Stage.seq (first rest : Stage) : Stage := fun wld =>
  match first wld with
  | (wld1, some p) => (wld1, some p)
  | (wld1, none) => rest wld1

/-- The call `e.Abort(err)` as a stretch of a handler. -/
def abortStage (e : errEncoder) (err : GoError) : Stage := fun wld =>
  match e.Abort wld err with
  | (wld1, p) => (wld1, some p)

/-- The handler returned by `errEncoderMiddleware(debug)`, with `enc` the
injected encoder and `next` what `c.Next()` runs, given the mapped
`errEncoder`: the deferred function recovers a panic, returns when it is the
`abort` signal and raises it again otherwise. -/
def errEncoderMiddleware (debug : Bool) (enc : Encoder) (next : errEncoder → Stage) : Stage :=
  fun wld =>
    match next { enc := enc, debug := debug } wld with
    | (wld1, some Panic.abort) => (wld1, none)
    | (wld1, some p) => (wld1, some p)
    | (wld1, none) => (wld1, none)

/-- The handler returned by `recoveryMiddleware(onPanic)`, with `next` what
`c.Next()` runs: the deferred function recovers any panic and invokes
`onPanic` with it. -/
def recoveryMiddleware (onPanic : Panic → Stage) (next : Stage) : Stage := fun wld =>
  match next wld with
  | (wld1, some r) => onPanic r wld1
  | (wld1, none) => (wld1, none)

/-- The text `%v` prints for a recovered value; the `abort` signal is the
empty struct. -/
def Panic.text : Panic → Str
  | Panic.abort => "\x7b\x7d".toList
  | Panic.other cause => cause

/-- The text of `fmt.Sprintf("%+v", s)` for a stack trace with the given
frames: the frames between brackets, separated by blanks. -/
def formatTrace (frames : List Str) : Str :=
  "[".toList ++ (" ".toList).intercalate frames ++ "]".toList

/-- Embeds `http.Error(w, error, code)`: sets the `Content-Type` header to
plain text, writes the header with the code and prints the text and a line
end. -/
def httpError (wld : World) (error : Str) (code : Int) : World × Option Panic :=
  match (wld.setContentType "text/plain; charset=utf-8".toList).callWriteHeader code with
  | (wld1, some p) => (wld1, some p)
  | (wld1, none) => ({ wld1 with w := wld1.w.Write (error ++ "\n".toList) }, none)

/-- The panic handler of `defaultRecoveryMiddleware(debugMode)`. `frames` are
the frames of `stack.Trace().TrimRuntime()` printed with `%+v`, `jsonEncoder`
is what `json.NewEncoder(w).Encode` does. It logs the crash at critical level,
each frame at debug level, and writes either the cause and the frames with
`http.Error` and code 500, or the JSON form of a plain 500 `*Error`. -/
def defaultRecoveryHandler (debugMode : Bool) (frames : List Str) (jsonEncoder : RawEncoder)
    (p : Panic) : Stage := fun wld =>
  let wld1 := wld.logAt Lvl.crit "handler crashed".toList
    [("panic".toList, Val.str p.text), ("stack".toList, Val.str (formatTrace frames))]
  let wld2 := frames.foldl
    (fun w fr => w.logAt Lvl.debug fr [("panic".toList, Val.str p.text)]) wld1
  if debugMode = true then
    httpError wld2
      ("panic: ".toList ++ p.text ++ "\n\n".toList ++ ("\n".toList).intercalate frames) 500
  else
    (((Encoder.encoderFunc jsonEncoder).Encode wld2
      (Payload.apiError (Error.mk 0 500 (StatusText 500) none))).1, none)

/-- Embeds `defaultRecoveryMiddleware(debugMode)`. -/
def defaultRecoveryMiddleware (debugMode : Bool) (frames : List Str)
    (jsonEncoder : RawEncoder) (next : Stage) : Stage :=
  recoveryMiddleware (defaultRecoveryHandler debugMode frames jsonEncoder) next

/-- The struct `response`: the negotiated encoder and the `errEncoder`; the
writer and the logger are those of the `World`. -/
structure response where
  enc : Encoder
  errEnc : errEncoder

/-- The value `responseMiddleware()` maps into the context, from the injected
encoder and `errEncoder`. -/
def responseMiddleware (enc : Encoder) (e : errEncoder) : response :=
  { enc := enc, errEnc := e }

/-- Embeds `(*response).Encode(v)`. -/
def response.Encode (r : response) (wld : World) (v : Payload) : World × Option GoError :=
  r.enc.Encode wld v

/-- The `Response` the handlers of an endpoint with the given debug flag
receive once `bestEncoder` has been selected: `marshalMiddleware` maps
`safeEncoder(bestEncoder, l)`, `errEncoderMiddleware(debug)` builds the
`errEncoder` from it, `responseMiddleware` puts the two together. -/
def endpointResponse (debug : Bool) (bestEncoder : ContentEncoder) : response :=
  responseMiddleware (Encoder.safeEncoder bestEncoder.Encoder)
    { enc := Encoder.safeEncoder bestEncoder.Encoder, debug := debug }

/-- An application handler that panics with the value `boom`. -/
def crashingHandler : errEncoder → Stage := fun _ wld => (wld, some (Panic.other "boom".toList))

/-- An application handler that aborts with the error `denied`. -/
def abortingHandler : errEncoder → Stage := fun e =>
  abortStage e (GoError.api (Error.mk 0 403 "denied".toList none))

/-- Two stack frames, standing for a trimmed stack trace. -/
def sampleFrames : List Str := ["main.handler".toList, "martini.Invoke".toList]

/-! ## Order facts about scores -/

theorem F64.lt_irr (a : F64) : F64.lt a a = false := by
  cases a <;> simp [F64.lt]

theorem F64.lt_tr {a b c : F64} (hab : F64.lt a b = true) (hbc : F64.lt b c = true) :
    F64.lt a c = true := by
  cases a <;> cases b <;> cases c <;> simp_all [F64.lt]
  exact hab.trans hbc

theorem F64.lt_of_not_lt_of_lt {a b c : F64} (ha : a ≠ F64.nan) (hb : b ≠ F64.nan)
    (hab : F64.lt a b = false) (hac : F64.lt a c = true) : F64.lt b c = true := by
  cases a <;> cases b <;> cases c <;> simp_all [F64.lt]
  exact lt_of_le_of_lt hab hac

theorem F64.le_zero_ne_nan {q : F64} (h : F64.le F64.zero q = true) : q ≠ F64.nan := by
  cases q <;> simp_all [F64.le, F64.lt, F64.eq, F64.zero]

theorem F64.le_zero_of_lt {q f : F64} (h : F64.le F64.zero q = true)
    (hf : F64.lt q f = true) : F64.le F64.zero f = true := by
  cases q <;> cases f <;> simp_all [F64.le, F64.lt, F64.eq, F64.zero]
  rcases h with h | h
  · exact Or.inl (h.trans hf)
  · left
    rw [h]
    exact hf

theorem F64.le_zero_one : F64.le F64.zero F64.one = true := by
  simp [F64.le, F64.lt, F64.zero, F64.one]

theorem F64.le_zero_zero : F64.le F64.zero F64.zero = true := by
  simp [F64.le, F64.lt, F64.eq, F64.zero]

theorem F64.lt_zero_one : F64.lt F64.zero F64.one = true := by
  simp [F64.lt, F64.zero, F64.one]

/-- For scores that are not NaN, `a <= b` fails exactly when `b < a`. -/
theorem F64.le_iff_not_lt {a b : F64} (ha : a ≠ F64.nan) (hb : b ≠ F64.nan) :
    F64.le a b = true ↔ F64.lt b a = false := by
  cases a <;> cases b <;> simp_all [F64.le, F64.lt, F64.eq]
  exact le_iff_lt_or_eq.symm

/-! ## The score is never negative and never NaN -/

theorem scanParams_nonneg (parseFloat : Str → Option F64) (params : List Str) (q : F64)
    (h : F64.le F64.zero q = true) :
    F64.le F64.zero (scanParams parseFloat params q).2 = true := by
  induction params with
  | nil => simpa [scanParams] using h
  | cons token rest ih =>
    simp only [scanParams]
    split
    · exact ih
    · cases hp : parseFloat (split token "=".toList).2 with
      | none => simpa using h
      | some f =>
        by_cases hlt : F64.lt q f = true
        · simpa [hlt] using F64.le_zero_of_lt h hlt
        · simpa [hlt] using h

theorem scanField_nonneg (parseFloat : Str → Option F64) (cGroup cType field : Str)
    (q : F64) (h : F64.le F64.zero q = true) :
    F64.le F64.zero (scanField parseFloat cGroup cType field q).2.2 = true := by
  unfold scanField
  split
  · exact h
  · split
    · exact scanParams_nonneg parseFloat _ q h
    · exact h

theorem scanFields_nonneg (parseFloat : Str → Option F64) (cGroup cType : Str)
    (fields : List Str) (q : F64) (h : F64.le F64.zero q = true) :
    F64.le F64.zero (scanFields parseFloat cGroup cType fields q) = true := by
  induction fields generalizing q with
  | nil => simpa [scanFields] using h
  | cons field rest ih =>
    simp only [scanFields]
    split
    · exact F64.le_zero_one
    · exact ih _ (scanField_nonneg parseFloat cGroup cType field q h)

theorem accepts_nonneg (parseFloat : Str → Option F64) (a ctype : Str) :
    F64.le F64.zero (accepts parseFloat a ctype) = true := by
  unfold accepts
  split
  · exact F64.le_zero_one
  · exact scanFields_nonneg parseFloat _ _ _ _ F64.le_zero_zero

theorem accepts_ne_nan (parseFloat : Str → Option F64) (a ctype : Str) :
    accepts parseFloat a ctype ≠ F64.nan :=
  F64.le_zero_ne_nan (accepts_nonneg parseFloat a ctype)

/-! ## The selection loop picks the first entry with the highest score -/

/-- The loop either keeps its running best because no entry beats it, or
ends on an entry that beats the running best, beats every entry before it and
is beaten by no entry after it. -/
theorem selectLoop_spec (parseFloat : Str → Option F64) (accept : Str)
    (l : List ContentEncoder) (bestQ : F64) (bestEncoder : Option ContentEncoder)
    (hb : bestQ ≠ F64.nan) :
    ((∀ e ∈ l, F64.lt bestQ (accepts parseFloat accept e.ContentType) = false) ∧
      selectLoop parseFloat accept l (bestQ, bestEncoder) = (bestQ, bestEncoder)) ∨
    (∃ pre enc post, l = pre ++ enc :: post ∧
      selectLoop parseFloat accept l (bestQ, bestEncoder)
        = (accepts parseFloat accept enc.ContentType, some enc) ∧
      F64.lt bestQ (accepts parseFloat accept enc.ContentType) = true ∧
      (∀ e ∈ pre, F64.lt (accepts parseFloat accept e.ContentType)
        (accepts parseFloat accept enc.ContentType) = true) ∧
      (∀ e ∈ post, F64.lt (accepts parseFloat accept enc.ContentType)
        (accepts parseFloat accept e.ContentType) = false)) := by
  induction l generalizing bestQ bestEncoder with
  | nil => left; simp [selectLoop]
  | cons x rest ih =>
    by_cases hx : F64.lt bestQ (accepts parseFloat accept x.ContentType) = true
    · have hstep : selectLoop parseFloat accept (x :: rest) (bestQ, bestEncoder)
          = selectLoop parseFloat accept rest
              (accepts parseFloat accept x.ContentType, some x) := by
        simp [selectLoop, F64.gt, hx]
      rcases ih (accepts parseFloat accept x.ContentType) (some x)
          (accepts_ne_nan parseFloat accept x.ContentType) with ⟨hnone, heq⟩ | h
      · right
        refine ⟨[], x, rest, rfl, ?_, hx, ?_, hnone⟩
        · rw [hstep, heq]
        · intro e he; simp at he
      · obtain ⟨pre, enc, post, hl, heq, hlt, hpre, hpost⟩ := h
        right
        refine ⟨x :: pre, enc, post, by simp [hl], ?_, F64.lt_tr hx hlt, ?_, hpost⟩
        · rw [hstep, heq]
        · intro e he
          rcases List.mem_cons.mp he with rfl | he
          · exact hlt
          · exact hpre e he
    · have hx0 : F64.lt bestQ (accepts parseFloat accept x.ContentType) = false := by
        simpa using hx
      have hstep : selectLoop parseFloat accept (x :: rest) (bestQ, bestEncoder)
          = selectLoop parseFloat accept rest (bestQ, bestEncoder) := by
        simp [selectLoop, F64.gt, hx0]
      rcases ih bestQ bestEncoder hb with ⟨hnone, heq⟩ | h
      · left
        refine ⟨?_, by rw [hstep, heq]⟩
        intro e he
        rcases List.mem_cons.mp he with rfl | he
        · exact hx0
        · exact hnone e he
      · obtain ⟨pre, enc, post, hl, heq, hlt, hpre, hpost⟩ := h
        right
        refine ⟨x :: pre, enc, post, by simp [hl], ?_, hlt, ?_, hpost⟩
        · rw [hstep, heq]
        · intro e he
          rcases List.mem_cons.mp he with rfl | he
          · exact F64.lt_of_not_lt_of_lt hb
              (accepts_ne_nan parseFloat accept e.ContentType) hx0 hlt
          · exact hpre e he

/-- The short-circuit of `accepts`. -/
theorem accepts_wildcard (parseFloat : Str → Option F64) (ctype : Str) :
    accepts parseFloat "*/*".toList ctype = F64.one := by
  simp [accepts]

theorem accepts_self (parseFloat : Str → Option F64) (ctype : Str) :
    accepts parseFloat ctype ctype = F64.one := by
  simp [accepts]

/-- With an empty or `*/*` header the header value worked with is `*/*`. -/
theorem effectiveAccept_wildcard (r : Request)
    (h : r.Accept = [] ∨ r.Accept = "*/*".toList) : effectiveAccept r = "*/*".toList := by
  unfold effectiveAccept
  rcases h with h | h <;> simp [h]

/-- C1. For a non-empty registry `enc :: rest` and a request whose `Accept`
header is empty or exactly `*/*`, the selection loop of `marshalMiddleware`
ends with score 1 on the first-registered entry `enc`; the middleware hands no
error to `abort` (negotiation does not fail), selects `enc` and only sets the
`Content-Type` response header to the content type of `enc`. -/
theorem C1_wildcard_selects_first (parseFloat : Str → Option F64)
    (jsonEncoder : RawEncoder) (enc : ContentEncoder) (rest : List ContentEncoder)
    (r : Request) (wld : World)
    (h : r.Accept = [] ∨ r.Accept = "*/*".toList) :
    negotiate parseFloat (enc :: rest) r = (F64.one, some enc) ∧
    (marshalMiddleware parseFloat jsonEncoder (enc :: rest) r wld).bestEncoder = some enc ∧
    (marshalMiddleware parseFloat jsonEncoder (enc :: rest) r wld).aborted = none ∧
    (marshalMiddleware parseFloat jsonEncoder (enc :: rest) r wld).wld
      = wld.setContentType enc.ContentType := by
  have hneg : negotiate parseFloat (enc :: rest) r = (F64.one, some enc) := by
    unfold negotiate
    rw [effectiveAccept_wildcard r h]
    have hstep : selectLoop parseFloat "*/*".toList (enc :: rest) (F64.zero, none)
        = selectLoop parseFloat "*/*".toList rest (F64.one, some enc) := by
      simp only [selectLoop, accepts_wildcard, F64.gt, F64.lt_zero_one, if_true]
    rw [hstep]
    rcases selectLoop_spec parseFloat "*/*".toList rest F64.one (some enc)
        (by simp [F64.one]) with ⟨_, heq⟩ | ⟨pre, x, post, _, _, hlt, _, _⟩
    · exact heq
    · rw [accepts_wildcard, F64.lt_irr] at hlt
      exact absurd hlt (by simp)
  have hne : F64.eq F64.one F64.zero = false := by
    simp [F64.eq, F64.one, F64.zero]
  refine ⟨hneg, ?_, ?_, ?_⟩ <;> simp [marshalMiddleware, hneg, hne]

/-- C1, at the default registry of `New` with an empty `Accept` header: the
`text/html` entry is selected. -/
theorem C1_wildcard_selects_first_witness :
    (([] : Str) = [] ∨ ([] : Str) = "*/*".toList) ∧
    (marshalMiddleware parseFloatSample okEncoder defaultEncoders
      { Method := "GET".toList, Accept := [], ContentType := [], Query := [], Body := [] }
      World.fresh).bestEncoder
      = some { ContentType := "text/html".toList, Encoder := Encoder.encoderFunc okEncoder } :=
  ⟨Or.inl rfl,
    (C1_wildcard_selects_first parseFloatSample okEncoder
      { ContentType := "text/html".toList, Encoder := Encoder.encoderFunc okEncoder }
      _ { Method := "GET".toList, Accept := [], ContentType := [], Query := [], Body := [] }
      World.fresh (Or.inl rfl)).2.1⟩


theorem startsWith_eq (s sep : Str) (h : startsWith s sep = true) :
    s = sep ++ s.drop sep.length := by
  induction sep generalizing s with
  | nil => simp
  | cons d sep ih =>
    cases s with
    | nil => simp [startsWith] at h
    | cons c s =>
      simp only [startsWith, Bool.and_eq_true, beq_iff_eq] at h
      obtain ⟨rfl, h2⟩ := h
      have := ih s h2
      simp only [List.length_cons, List.drop_succ_cons, List.cons_append]
      rw [← this]

/-- When `SplitN` finds the separator, the two parts and the separator make
up the string. -/
theorem SplitN2_some (sep s a b : Str) (h : SplitN2 sep s = (a, some b)) :
    s = a ++ sep ++ b := by
  induction s generalizing a with
  | nil => simp [SplitN2] at h
  | cons c s ih =>
    simp only [SplitN2] at h
    split at h
    · rename_i hs
      simp only [Prod.mk.injEq, Option.some.injEq] at h
      obtain ⟨rfl, rfl⟩ := h
      simpa using startsWith_eq _ _ hs
    · rcases hr : SplitN2 sep s with ⟨a1, b1⟩
      rw [hr] at h
      simp only [Prod.mk.injEq] at h
      obtain ⟨rfl, rfl⟩ := h
      have := ih a1 hr
      simp [this]

/-- A separator character that occurs in the string is found by `SplitN`. -/
theorem SplitN2_mem (c : Char) (s : Str) (h : c ∈ s) :
    ∃ a b, SplitN2 [c] s = (a, some b) := by
  induction s with
  | nil => simp at h
  | cons d s ih =>
    simp only [SplitN2]
    split
    · exact ⟨_, _, rfl⟩
    · rename_i hs
      have hd : d ≠ c := by
        intro hdc
        apply hs
        simp [startsWith, hdc]
      have hc : c ∈ s := by
        rcases List.mem_cons.mp h with h | h
        · exact absurd h.symm hd
        · exact h
      obtain ⟨a, b, hab⟩ := ih hc
      exact ⟨d :: a, b, by rw [hab]⟩

theorem noSpace_iff (s : Str) : noSpace s = true ↔ ∀ c ∈ s, isSpace c = false := by
  simp [noSpace, List.all_eq_true]

theorem dropWhile_noSpace (s : Str) (h : noSpace s = true) : s.dropWhile isSpace = s := by
  cases s with
  | nil => rfl
  | cons c s =>
    have := (noSpace_iff _).mp h c (by simp)
    simp [List.dropWhile, this]

/-- Trimming a string without white space changes nothing. -/
theorem TrimSpace_noSpace (s : Str) (h : noSpace s = true) : TrimSpace s = s := by
  unfold TrimSpace
  rw [dropWhile_noSpace s h]
  have hr : noSpace s.reverse = true := by
    rw [noSpace_iff] at h ⊢
    intro c hc
    exact h c (List.mem_reverse.mp hc)
  rw [dropWhile_noSpace _ hr, List.reverse_reverse]

theorem noSpace_append (a b : Str) :
    noSpace (a ++ b) = true ↔ noSpace a = true ∧ noSpace b = true := by
  simp [noSpace, List.all_append]

/-- The field list of a string without the separator is the string itself. -/
theorem Split_not_mem (sep : Char) (s : Str) (h : sep ∉ s) : Split sep s = [s] := by
  induction s with
  | nil => rfl
  | cons c s ih =>
    have hc : c ≠ sep := fun hc => h (by simp [hc])
    have hs : sep ∉ s := fun hs => h (by simp [hs])
    simp [Split, hc, ih hs]

/-- On a string without white space, `split` on `/` returns the text before
and after the first `/`; a non-empty second part means there is a `/`. -/
theorem split_slash_noSpace (c g t : Str) (hns : noSpace c = true)
    (h : split c "/".toList = (g, t)) (ht : t ≠ []) : c = g ++ '/' :: t := by
  unfold split at h
  rcases hr : SplitN2 "/".toList c with ⟨p0, o⟩
  rw [hr] at h
  cases o with
  | none =>
    simp only [Prod.mk.injEq] at h
    exact absurd h.2.symm ht
  | some p1 =>
    have hc := SplitN2_some _ _ _ _ hr
    have hc2 : c = p0 ++ ('/' :: p1) := by simpa using hc
    rw [hc2, noSpace_append] at hns
    have hp1 : noSpace p1 = true := by
      have := hns.2
      simp only [noSpace, List.all_cons, Bool.and_eq_true] at this ⊢
      exact this.2
    simp only [Prod.mk.injEq] at h
    rw [TrimSpace_noSpace _ hns.1, TrimSpace_noSpace _ hp1] at h
    rw [hc2, h.1, h.2]

theorem split_slash_mem (c : Str) (hns : noSpace c = true) (hm : '/' ∈ c) :
    c = (split c "/".toList).1 ++ '/' :: (split c "/".toList).2 := by
  obtain ⟨p0, p1, hr⟩ := SplitN2_mem '/' c hm
  have hr2 : SplitN2 "/".toList c = (p0, some p1) := hr
  have hc := SplitN2_some _ _ _ _ hr2
  have hc2 : c = p0 ++ ('/' :: p1) := by simpa using hc
  have hns2 := hns
  rw [hc2, noSpace_append] at hns2
  have hp1 : noSpace p1 = true := by
    have := hns2.2
    simp only [noSpace, List.all_cons, Bool.and_eq_true] at this ⊢
    exact this.2
  have hs : split c "/".toList = (p0, p1) := by
    unfold split
    rw [hr2]
    simp only
    rw [TrimSpace_noSpace _ hns2.1, TrimSpace_noSpace _ hp1]
  rw [hs]
  exact hc2

/-! ## Scores of plain content types -/

theorem plainType_iff (c : Str) :
    plainType c = true ↔ noSpace c = true ∧ ',' ∉ c ∧ ';' ∉ c ∧ '/' ∈ c ∧
      (split c "/".toList).2 ≠ "*".toList := by
  simp [plainType, and_assoc]

theorem scanFields_cons_eq (parseFloat : Str → Option F64) (cGroup cType field : Str)
    (rest : List Str) (q : F64) :
    scanFields parseFloat cGroup cType (field :: rest) q =
      if ((scanField parseFloat cGroup cType field q).1 &&
          !(scanField parseFloat cGroup cType field q).2.1) = true then F64.one
      else scanFields parseFloat cGroup cType rest
        (scanField parseFloat cGroup cType field q).2.2 := by
  rcases h : scanField parseFloat cGroup cType field q with ⟨a, b, c⟩
  simp [scanFields, h]

theorem scanField_eq (parseFloat : Str → Option F64) (cGroup cType field token : Str)
    (params : List Str) (q : F64) (h : Split ';' field = token :: params) :
    scanField parseFloat cGroup cType field q =
      if tokenMatches cGroup cType token = true then
        (true, (scanParams parseFloat params q).1, (scanParams parseFloat params q).2)
      else (false, false, q) := by
  unfold scanField
  rw [h]

theorem tokenMatches_eq (cGroup cType token : Str) :
    tokenMatches cGroup cType token =
      decide ((cType = (split token "/".toList).2 ∨ (split token "/".toList).2 = "*".toList) ∧
        (((split token "/".toList).1 = "*".toList ∧ (split token "/".toList).2 = "*".toList) ∨
          cGroup = (split token "/".toList).1)) := by
  unfold tokenMatches
  rcases split token "/".toList with ⟨g, t⟩
  by_cases h1 : cType = t ∨ t = "*".toList <;>
    by_cases h2 : (g = "*".toList ∧ t = "*".toList) ∨ cGroup = g <;> simp [h1, h2]

/-- A plain content type used as the whole `Accept` header gives every other
plain content type the score 0. -/
theorem accepts_plain_ne (parseFloat : Str → Option F64) (c d : Str)
    (hc : plainType c = true) (hd : plainType d = true) (hne : c ≠ d) :
    accepts parseFloat c d = F64.zero := by
  rw [plainType_iff] at hc hd
  obtain ⟨hcs, hcc, hcsc, hcm, hct⟩ := hc
  obtain ⟨hds, _, _, hdm, _⟩ := hd
  have hwild : c ≠ "*/*".toList := by
    intro h
    apply hct
    rw [h]
    decide
  have hnil : c ≠ [] := by
    intro h
    rw [h] at hcm
    simp at hcm
  have htok : tokenMatches (split d "/".toList).1 (split d "/".toList).2 c = false := by
    rw [tokenMatches_eq]
    simp only [decide_eq_false_iff_not]
    rintro ⟨h1, h2⟩
    have ht : (split d "/".toList).2 = (split c "/".toList).2 := by
      rcases h1 with h1 | h1
      · exact h1
      · exact absurd h1 hct
    have hg : (split d "/".toList).1 = (split c "/".toList).1 := by
      rcases h2 with h2 | h2
      · exact absurd h2.2 hct
      · exact h2
    apply hne
    rw [split_slash_mem c hcs hcm, split_slash_mem d hds hdm, ht, hg]
  unfold accepts
  rw [if_neg (fun h => h.elim hne (fun h => h.elim hwild hnil))]
  simp only
  rw [Split_not_mem ',' c hcc, scanFields_cons_eq,
    scanField_eq parseFloat _ _ c c [] F64.zero (Split_not_mem ';' c hcsc), htok]
  simp [scanFields]

/-! ## Selection of the first entry with the highest score -/

theorem selectLoop_keep (parseFloat : Str → Option F64) (accept : Str)
    (l : List ContentEncoder) (best : F64 × Option ContentEncoder)
    (h : ∀ e ∈ l, F64.lt best.1 (accepts parseFloat accept e.ContentType) = false) :
    selectLoop parseFloat accept l best = best := by
  induction l with
  | nil => simp [selectLoop]
  | cons x rest ih =>
    rcases best with ⟨bestQ, bestEncoder⟩
    have hx := h x (by simp)
    simp only at hx
    simp only [selectLoop, F64.gt, hx]
    exact ih (fun e he => h e (by simp [he]))

/-- The loop ends on `x` when `x` beats the running best and every entry
before it, and no entry after `x` beats `x`. -/
theorem selectLoop_first (parseFloat : Str → Option F64) (accept : Str)
    (pre post : List ContentEncoder) (x : ContentEncoder)
    (bestQ : F64) (bestEncoder : Option ContentEncoder)
    (hpre : ∀ e ∈ pre, F64.lt (accepts parseFloat accept e.ContentType)
      (accepts parseFloat accept x.ContentType) = true)
    (hx : F64.lt bestQ (accepts parseFloat accept x.ContentType) = true)
    (hpost : ∀ e ∈ post, F64.lt (accepts parseFloat accept x.ContentType)
      (accepts parseFloat accept e.ContentType) = false) :
    selectLoop parseFloat accept (pre ++ x :: post) (bestQ, bestEncoder)
      = (accepts parseFloat accept x.ContentType, some x) := by
  induction pre generalizing bestQ bestEncoder with
  | nil =>
    simp only [List.nil_append, selectLoop, F64.gt, hx, if_true]
    exact selectLoop_keep parseFloat accept post _ hpost
  | cons y pre ih =>
    simp only [List.cons_append, selectLoop, F64.gt]
    split
    · exact ih _ _ (fun e he => hpre e (by simp [he])) (hpre y (by simp))
    · exact ih _ _ (fun e he => hpre e (by simp [he])) hx

/-! ## C2: an `Accept` header equal to a registered content type -/

/-- C2, as stated, fails: in the registry `text/html`, `text/html;level=1`
the header `Accept: text/html;level=1` gives the earlier entry `text/html` the
score 1 as well (its field matches and carries no `q`), so the negotiator
selects the `text/html` entry and not the entry registered under the header's
content type. -/
theorem C2_counterexample :
    accepts parseFloatSample "text/html;level=1".toList "text/html".toList = F64.one ∧
    ((marshalMiddleware parseFloatSample okEncoder levelEncoders
        (requestWith "GET".toList "text/html;level=1".toList) World.fresh).bestEncoder.map
      ContentEncoder.ContentType) = some "text/html".toList ∧
    ¬ ((marshalMiddleware parseFloatSample okEncoder levelEncoders
        (requestWith "GET".toList "text/html;level=1".toList) World.fresh).bestEncoder.map
      ContentEncoder.ContentType) = some "text/html;level=1".toList := by
  decide

/-- C2, amended. For every registry whose content types are plain
`type/subtype` strings (a `/`, no white space, `,` or `;`, subtype not `*`) and
every content type `C` in it, a request with `Accept: C` gives `C` the score
1.0 and the negotiator selects the first entry registered under `C` (here `x`,
with no entry of the same content type before it), without failing. -/
theorem C2_exact_type_selects_first (parseFloat : Str → Option F64)
    (jsonEncoder : RawEncoder) (pre post : List ContentEncoder) (x : ContentEncoder)
    (r : Request) (wld : World)
    (hplain : ∀ e ∈ pre ++ x :: post, plainType e.ContentType = true)
    (hfirst : ∀ e ∈ pre, e.ContentType ≠ x.ContentType)
    (hacc : r.Accept = x.ContentType) :
    accepts parseFloat r.Accept x.ContentType = F64.one ∧
    negotiate parseFloat (pre ++ x :: post) r = (F64.one, some x) ∧
    (marshalMiddleware parseFloat jsonEncoder (pre ++ x :: post) r wld).bestEncoder
      = some x ∧
    (marshalMiddleware parseFloat jsonEncoder (pre ++ x :: post) r wld).aborted = none := by
  have hx : plainType x.ContentType = true := hplain x (by simp)
  have hxne : x.ContentType ≠ [] := by
    intro h
    have := ((plainType_iff _).mp hx).2.2.2.1
    rw [h] at this
    simp at this
  have heff : effectiveAccept r = x.ContentType := by
    unfold effectiveAccept
    rw [hacc, if_neg hxne]
  have hself : accepts parseFloat x.ContentType x.ContentType = F64.one :=
    accepts_self parseFloat _
  have hother : ∀ e ∈ pre ++ x :: post, e.ContentType ≠ x.ContentType →
      accepts parseFloat x.ContentType e.ContentType = F64.zero := fun e he hne =>
    accepts_plain_ne parseFloat _ _ hx (hplain e he) (fun h => hne h.symm)
  have hneg : negotiate parseFloat (pre ++ x :: post) r = (F64.one, some x) := by
    unfold negotiate
    rw [heff, ← hself]
    apply selectLoop_first
    · intro e he
      rw [hother e (by simp [he]) (hfirst e he), hself]
      exact F64.lt_zero_one
    · rw [hself]
      exact F64.lt_zero_one
    · intro e he
      rw [hself]
      by_cases hc : e.ContentType = x.ContentType
      · rw [hc, hself]
        exact F64.lt_irr _
      · rw [hother e (by simp [he]) hc]
        simp [F64.lt, F64.one, F64.zero]
  have hne : F64.eq F64.one F64.zero = false := by
    simp [F64.eq, F64.one, F64.zero]
  refine ⟨by rw [hacc]; exact hself, hneg, ?_, ?_⟩ <;> simp [marshalMiddleware, hneg, hne]

/-- C2, amended, at the default registry of `New` with
`Accept: application/json`: the `application/json` entry is selected. -/
theorem C2_exact_type_selects_first_witness :
    (marshalMiddleware parseFloatSample okEncoder defaultEncoders
      (requestWith "GET".toList "application/json".toList) World.fresh).bestEncoder
      = some { ContentType := "application/json".toList,
               Encoder := Encoder.encoderFunc okEncoder } :=
  (C2_exact_type_selects_first parseFloatSample okEncoder
    [{ ContentType := "text/html".toList, Encoder := Encoder.encoderFunc okEncoder }]
    [{ ContentType := "text/xml".toList, Encoder := Encoder.encoderFunc okEncoder },
     { ContentType := "application/xml".toList, Encoder := Encoder.encoderFunc okEncoder }]
    { ContentType := "application/json".toList, Encoder := Encoder.encoderFunc okEncoder }
    (requestWith "GET".toList "application/json".toList) World.fresh
    (by decide) (by decide) rfl).2.2.1

/-! ## C3: the highest score wins, the first entry among equals -/

theorem scanParams_q (parseFloat : Str → Option F64) (token v : Str) (rest : List Str)
    (q f : F64) (hs : split token "=".toList = ("q".toList, v)) (hp : parseFloat v = some f) :
    scanParams parseFloat (token :: rest) q = (true, F64.maxF q f) := by
  simp only [scanParams, hs, hp, F64.maxF]
  simp

/-- The score of a field `token;q=v` whose `q` parses to `f`, from the running
value `q`. -/
theorem scanField_q (parseFloat : Str → Option F64) (cGroup cType field token p v : Str)
    (q f : F64) (hf : Split ';' field = [token, p])
    (hs : split p "=".toList = ("q".toList, v)) (hp : parseFloat v = some f) :
    scanField parseFloat cGroup cType field q =
      if tokenMatches cGroup cType token = true then (true, true, F64.maxF q f)
      else (false, false, q) := by
  rw [scanField_eq parseFloat cGroup cType field token [p] q hf,
    scanParams_q parseFloat p v [] q f hs hp]

theorem accepts_qualityHeader (parseFloat : Str → Option F64) (a b : F64) (d : Str)
    (ha : parseFloat "0.5".toList = some a) (hb : parseFloat "0.9".toList = some b)
    (h0 : F64.lt F64.zero a = true) (hab : F64.lt a b = true) (hns : noSpace d = true) :
    accepts parseFloat qualityHeader d =
      if d = "text/xml".toList then b
      else if d = "application/json".toList then a else F64.zero := by
  have hd : qualityHeader ≠ d := by
    intro h
    rw [← h] at hns
    exact absurd hns (by decide)
  have hS : Split ',' qualityHeader
      = ["application/json;q=0.5".toList, " text/xml;q=0.9".toList] := by decide
  have hS1 : Split ';' "application/json;q=0.5".toList
      = ["application/json".toList, "q=0.5".toList] := by decide
  have hS2 : Split ';' " text/xml;q=0.9".toList
      = [" text/xml".toList, "q=0.9".toList] := by decide
  have hq1 : split "q=0.5".toList "=".toList = ("q".toList, "0.5".toList) := by decide
  have hq2 : split "q=0.9".toList "=".toList = ("q".toList, "0.9".toList) := by decide
  have ht1 : split "application/json".toList "/".toList
      = ("application".toList, "json".toList) := by decide
  have ht2 : split " text/xml".toList "/".toList = ("text".toList, "xml".toList) := by decide
  have h0b : F64.lt F64.zero b = true := F64.lt_tr h0 hab
  unfold accepts
  rw [if_neg (fun h => h.elim hd (fun h => h.elim (by decide) (by decide)))]
  simp only
  rw [hS, scanFields_cons_eq, scanField_q parseFloat _ _ _ _ _ _ _ _ hS1 hq1 ha,
    scanFields_cons_eq, scanField_q parseFloat _ _ _ _ _ _ _ _ hS2 hq2 hb,
    tokenMatches_eq, tokenMatches_eq, ht1, ht2]
  rcases hsp : split d "/".toList with ⟨g, t⟩
  have hz0 : F64.maxF F64.zero a = a := by simp [F64.maxF, h0]
  have hzb : F64.maxF F64.zero b = b := by simp [F64.maxF, h0b]
  have hab2 : F64.maxF a b = b := by simp [F64.maxF, hab]
  by_cases hx : d = "text/xml".toList
  · have hgt : (g, t) = ("text".toList, "xml".toList) := by
      rw [← hsp, hx]
      decide
    simp only [Prod.mk.injEq] at hgt
    obtain ⟨rfl, rfl⟩ := hgt
    rw [if_pos hx]
    simp [hzb, scanFields]
  · rw [if_neg hx]
    by_cases hj : d = "application/json".toList
    · have hgt : (g, t) = ("application".toList, "json".toList) := by
        rw [← hsp, hj]
        decide
      simp only [Prod.mk.injEq] at hgt
      obtain ⟨rfl, rfl⟩ := hgt
      rw [if_pos hj]
      simp [hz0, scanFields]
    · rw [if_neg hj]
      have h1 : ¬ (t = "json".toList ∧ g = "application".toList) := by
        rintro ⟨rfl, rfl⟩
        exact hj (split_slash_noSpace d _ _ hns hsp (by decide))
      have h2 : ¬ (t = "xml".toList ∧ g = "text".toList) := by
        rintro ⟨rfl, rfl⟩
        exact hx (split_slash_noSpace d _ _ hns hsp (by decide))
      have h1c : ¬ (t = ['j', 's', 'o', 'n'] ∧
          g = ['a', 'p', 'p', 'l', 'i', 'c', 'a', 't', 'i', 'o', 'n']) := h1
      have h2c : ¬ (t = ['x', 'm', 'l'] ∧ g = ['t', 'e', 'x', 't']) := h2
      simp [scanFields]
      rw [if_neg h1c, if_neg h2c]
      simp

theorem F64.le_of_lt {a b : F64} (h : F64.lt a b = true) : F64.le a b = true := by
  simp [F64.le, h]

theorem F64.le_rfl_of_ne_nan {a : F64} (h : a ≠ F64.nan) : F64.le a a = true := by
  cases a <;> simp_all [F64.le, F64.lt, F64.eq]

theorem marshalMiddleware_ok (parseFloat : Str → Option F64) (jsonEncoder : RawEncoder)
    (encoders : List ContentEncoder) (r : Request) (wld : World) (q : F64)
    (enc : ContentEncoder) (hneg : negotiate parseFloat encoders r = (q, some enc))
    (hq : F64.lt F64.zero q = true) :
    (marshalMiddleware parseFloat jsonEncoder encoders r wld).bestEncoder = some enc ∧
    (marshalMiddleware parseFloat jsonEncoder encoders r wld).aborted = none := by
  have hne : F64.eq q F64.zero = false := by
    cases q <;> simp_all [F64.eq, F64.lt, F64.zero]
    intro h
    rw [h] at hq
    exact absurd hq (lt_irrefl _)
  constructor <;> simp [marshalMiddleware, hneg, hne]

/-- C3, as stated, fails in its example: over a registry that contains
`application/json` and `text/xml` and also an entry whose content type is the
header text itself, that entry scores 1 by the short-circuit and is selected;
over a registry that lists ` text/xml` (with a leading blank) first, that
entry scores 0.9 and is selected, not the entry registered under `text/xml`. -/
theorem C3_counterexample :
    ((marshalMiddleware parseFloatSample okEncoder headerNamedEncoders
        (requestWith "GET".toList qualityHeader) World.fresh).bestEncoder.map
      ContentEncoder.ContentType) = some qualityHeader ∧
    ((marshalMiddleware parseFloatSample okEncoder paddedEncoders
        (requestWith "GET".toList qualityHeader) World.fresh).bestEncoder.map
      ContentEncoder.ContentType) = some " text/xml".toList ∧
    qualityHeader ≠ "text/xml".toList ∧ " text/xml".toList ≠ "text/xml".toList := by
  decide

/-- C3, amended. Whenever some candidate scores above 0, the negotiator
selects a candidate whose score is the highest of all candidates and which
comes before every other candidate with that score (every earlier entry scores
strictly less), and negotiation does not fail. For the header
`application/json;q=0.5, text/xml;q=0.9`, where `ParseFloat` reads `0.5` and
`0.9` as `a` and `b` with `0 < a < b`: over any registry whose content types
contain no white space, every `application/json` entry scores `a`, and if the
registry contains `text/xml` its first `text/xml` entry is selected with score
`b`, wherever the entries stand. -/
theorem C3_highest_score_first (parseFloat : Str → Option F64) (jsonEncoder : RawEncoder)
    (encoders : List ContentEncoder) (r : Request) (wld : World) :
    ((∃ e ∈ encoders, F64.lt F64.zero (score parseFloat r e) = true) →
      ∃ pre enc post, encoders = pre ++ enc :: post ∧
        (marshalMiddleware parseFloat jsonEncoder encoders r wld).bestEncoder = some enc ∧
        (marshalMiddleware parseFloat jsonEncoder encoders r wld).aborted = none ∧
        (∀ e ∈ encoders, F64.le (score parseFloat r e) (score parseFloat r enc) = true) ∧
        (∀ e ∈ pre, F64.lt (score parseFloat r e) (score parseFloat r enc) = true)) ∧
    (∀ a b : F64, parseFloat "0.5".toList = some a → parseFloat "0.9".toList = some b →
      F64.lt F64.zero a = true → F64.lt a b = true →
      r.Accept = qualityHeader →
      (∀ e ∈ encoders, noSpace e.ContentType = true) →
      (∀ e ∈ encoders, e.ContentType = "application/json".toList →
        score parseFloat r e = a) ∧
      ∀ pre x post, encoders = pre ++ x :: post →
        x.ContentType = "text/xml".toList →
        (∀ e ∈ pre, e.ContentType ≠ "text/xml".toList) →
        score parseFloat r x = b ∧
        (marshalMiddleware parseFloat jsonEncoder encoders r wld).bestEncoder = some x ∧
        (marshalMiddleware parseFloat jsonEncoder encoders r wld).aborted = none) := by
  constructor
  · rintro ⟨e0, he0, hpos⟩
    rcases selectLoop_spec parseFloat (effectiveAccept r) encoders F64.zero none
        (by simp [F64.zero]) with ⟨hnone, _⟩ | ⟨pre, enc, post, hl, heq, hlt, hpre, hpost⟩
    · have := hnone e0 he0
      unfold score at hpos
      rw [this] at hpos
      exact absurd hpos (by simp)
    · have hm := marshalMiddleware_ok parseFloat jsonEncoder encoders r wld _ enc heq hlt
      refine ⟨pre, enc, post, hl, hm.1, hm.2, ?_, hpre⟩
      intro e he
      rw [hl] at he
      rcases List.mem_append.mp he with he | he
      · exact F64.le_of_lt (hpre e he)
      · rcases List.mem_cons.mp he with rfl | he
        · exact F64.le_rfl_of_ne_nan (accepts_ne_nan _ _ _)
        · exact (F64.le_iff_not_lt (accepts_ne_nan _ _ _) (accepts_ne_nan _ _ _)).mpr
            (hpost e he)
  · intro a b ha hb h0 hab hacc hns
    have heff : effectiveAccept r = qualityHeader := by
      unfold effectiveAccept
      rw [hacc, if_neg (by decide)]
    have hsc : ∀ e ∈ encoders, score parseFloat r e =
        if e.ContentType = "text/xml".toList then b
        else if e.ContentType = "application/json".toList then a else F64.zero := by
      intro e he
      unfold score
      rw [heff]
      exact accepts_qualityHeader parseFloat a b _ ha hb h0 hab (hns e he)
    have h0b : F64.lt F64.zero b = true := F64.lt_tr h0 hab
    have hba : F64.lt b a = false := by
      cases a <;> cases b <;> simp_all [F64.lt]
      exact le_of_lt hab
    have hb0 : F64.lt b F64.zero = false := by
      cases b <;> simp_all [F64.lt, F64.zero]
      exact le_of_lt h0b
    constructor
    · intro e he hj
      rw [hsc e he, if_neg (by rw [hj]; decide), if_pos hj]
    · intro pre x post hl hx hfirst
      have hxs : score parseFloat r x = b := by
        rw [hsc x (by simp [hl]), if_pos hx]
      have hle : ∀ e ∈ encoders, F64.lt b (score parseFloat r e) = false := by
        intro e he
        rw [hsc e he]
        split
        · exact F64.lt_irr b
        · split
          · exact hba
          · exact hb0
      have hneg : negotiate parseFloat encoders r = (b, some x) := by
        unfold negotiate
        rw [hl]
        have := selectLoop_first parseFloat (effectiveAccept r) pre post x F64.zero none
          (by
            intro e he
            have h1 := hsc e (by simp [hl, he])
            unfold score at h1 hxs
            rw [h1, hxs, if_neg (hfirst e he)]
            split
            · exact hab
            · exact h0b)
          (by
            unfold score at hxs
            rw [hxs]
            exact h0b)
          (by
            intro e he
            have h1 := hle e (by simp [hl, he])
            unfold score at hxs h1
            rw [hxs]
            exact h1)
        unfold score at hxs
        rw [this, hxs]
      have hm := marshalMiddleware_ok parseFloat jsonEncoder encoders r wld b x hneg h0b
      exact ⟨hxs, hm.1, hm.2⟩

/-- C3, amended, at the default registry of `New` with the header
`application/json;q=0.5, text/xml;q=0.9`: the `text/xml` entry is selected
although `text/html` and `application/json` are listed before it. -/
theorem C3_highest_score_first_witness :
    (marshalMiddleware parseFloatSample okEncoder defaultEncoders
      (requestWith "GET".toList qualityHeader) World.fresh).bestEncoder
      = some { ContentType := "text/xml".toList, Encoder := Encoder.encoderFunc okEncoder } :=
  (((C3_highest_score_first parseFloatSample okEncoder defaultEncoders
      (requestWith "GET".toList qualityHeader) World.fresh).2
      (F64.fin (mkRat 1 2)) (F64.fin (mkRat 9 10)) (by decide) (by decide) (by decide)
      (by decide) rfl (by decide)).2
    [{ ContentType := "text/html".toList, Encoder := Encoder.encoderFunc okEncoder },
     { ContentType := "application/json".toList, Encoder := Encoder.encoderFunc okEncoder }]
    { ContentType := "text/xml".toList, Encoder := Encoder.encoderFunc okEncoder }
    [{ ContentType := "application/xml".toList, Encoder := Encoder.encoderFunc okEncoder }]
    rfl rfl (by decide)).2.1

/-! ## C4: the score and the highest quality of the matching fields -/

theorem F64.eq_true_iff {a b : F64} (h : F64.eq a b = true) : a = b := by
  cases a <;> cases b <;> simp_all [F64.eq]

theorem F64.maxF_zero {x : F64} (h : F64.le F64.zero x = true) : F64.maxF F64.zero x = x := by
  unfold F64.maxF
  by_cases hlt : F64.lt F64.zero x = true
  · simp [hlt]
  · have he : F64.eq F64.zero x = true := by simpa [F64.le, hlt] using h
    simp [hlt, F64.eq_true_iff he]

theorem F64.maxF_one {q : F64} (h : F64.le q F64.one = true) : F64.maxF q F64.one = F64.one := by
  unfold F64.maxF
  by_cases hlt : F64.lt q F64.one = true
  · simp [hlt]
  · have he : F64.eq q F64.one = true := by simpa [F64.le, hlt] using h
    simp [hlt, F64.eq_true_iff he]

theorem F64.one_maxF {x : F64} (h : F64.le x F64.one = true) : F64.maxF F64.one x = F64.one := by
  unfold F64.maxF
  have : F64.lt F64.one x = false := by
    cases x <;> simp_all [F64.le, F64.lt, F64.eq, F64.one]
    rcases h with h | h <;> exact h.le
  simp [this]

theorem F64.le_zero_maxF {q f : F64} (hq : F64.le F64.zero q = true) :
    F64.le F64.zero (F64.maxF q f) = true := by
  unfold F64.maxF
  by_cases hlt : F64.lt q f = true
  · simpa [hlt] using F64.le_zero_of_lt hq hlt
  · simpa [hlt] using hq

theorem F64.maxF_le_one {q f : F64} (hq : F64.le q F64.one = true)
    (hf : F64.le f F64.one = true) : F64.le (F64.maxF q f) F64.one = true := by
  unfold F64.maxF
  split <;> assumption

theorem foldl_maxF_one (l : List F64) (h : ∀ x ∈ l, F64.le x F64.one = true) :
    l.foldl F64.maxF F64.one = F64.one := by
  induction l with
  | nil => rfl
  | cons x xs ih =>
    simp only [List.foldl_cons]
    rw [F64.one_maxF (h x (by simp))]
    exact ih (fun y hy => h y (by simp [hy]))

theorem highest_eq_foldl (l : List F64) (h : ∀ x ∈ l, F64.le F64.zero x = true) :
    highest l = l.foldl F64.maxF F64.zero := by
  cases l with
  | nil => rfl
  | cons x xs =>
    simp only [highest, List.foldl_cons]
    rw [F64.maxF_zero (h x (by simp))]

theorem scanParams_firstQ (parseFloat : Str → Option F64) (params : List Str) (q : F64) :
    scanParams parseFloat params q =
      match firstQ params with
      | none => (false, q)
      | some v =>
        match parseFloat v with
        | none => (false, q)
        | some f => (true, F64.maxF q f) := by
  induction params with
  | nil => rfl
  | cons token rest ih =>
    simp only [scanParams, firstQ]
    by_cases hk : (split token "=".toList).1 = "q".toList
    · simp only [hk, ne_eq, not_true_eq_false, if_false, if_true]
      cases parseFloat (split token "=".toList).2 <;> simp [F64.maxF]
    · simp only [hk, ne_eq, not_false_eq_true, if_true, if_false]
      exact ih

/-- One step of the loop of `accepts`, in the claim's terms. -/
theorem scanField_spec (parseFloat : Str → Option F64) (ctype field : Str) (q : F64) :
    scanField parseFloat (split ctype "/".toList).1 (split ctype "/".toList).2 field q =
      if specFieldMatches ctype field = true then
        match firstQ (Split ';' field).tail with
        | none => (true, false, q)
        | some v =>
          match parseFloat v with
          | none => (true, false, q)
          | some f => (true, true, F64.maxF q f)
      else (false, false, q) := by
  unfold scanField specFieldMatches
  cases hS : Split ';' field with
  | nil => simp
  | cons token params =>
    simp only [List.tail_cons]
    rw [tokenMatches_eq, scanParams_firstQ]
    have hiff : (((split ctype "/".toList).2 = (split token "/".toList).2 ∨
          (split token "/".toList).2 = "*".toList) ∧
        (((split token "/".toList).1 = "*".toList ∧ (split token "/".toList).2 = "*".toList) ∨
          (split ctype "/".toList).1 = (split token "/".toList).1)) ↔
        (((split token "/".toList).2 = (split ctype "/".toList).2 ∨
          (split token "/".toList).2 = "*".toList) ∧
        (((split token "/".toList).1 = "*".toList ∧ (split token "/".toList).2 = "*".toList) ∨
          (split token "/".toList).1 = (split ctype "/".toList).1)) := by
      constructor <;> rintro ⟨h1, h2⟩ <;>
        exact ⟨h1.imp Eq.symm id, h2.imp id Eq.symm⟩
    rw [show decide (((split ctype "/".toList).2 = (split token "/".toList).2 ∨
          (split token "/".toList).2 = "*".toList) ∧
        (((split token "/".toList).1 = "*".toList ∧ (split token "/".toList).2 = "*".toList) ∨
          (split ctype "/".toList).1 = (split token "/".toList).1)) =
        decide (((split token "/".toList).2 = (split ctype "/".toList).2 ∨
          (split token "/".toList).2 = "*".toList) ∧
        (((split token "/".toList).1 = "*".toList ∧ (split token "/".toList).2 = "*".toList) ∨
          (split token "/".toList).1 = (split ctype "/".toList).1)) from
      decide_eq_decide.mpr hiff]
    split
    · cases firstQ params with
      | none => rfl
      | some v => cases hp : parseFloat v <;> simp [hp]
    · rfl

theorem scanFields_spec (parseFloat : Str → Option F64) (ctype : Str) (fields : List Str)
    (q : F64) (hq0 : F64.le F64.zero q = true) (hq1 : F64.le q F64.one = true)
    (h : ∀ field ∈ fields, specFieldMatches ctype field = true →
      F64.le F64.zero (specFieldQuality parseFloat field) = true ∧
      F64.le (specFieldQuality parseFloat field) F64.one = true) :
    scanFields parseFloat (split ctype "/".toList).1 (split ctype "/".toList).2 fields q =
      ((fields.filter (specFieldMatches ctype)).map (specFieldQuality parseFloat)).foldl
        F64.maxF q := by
  induction fields generalizing q with
  | nil => rfl
  | cons field rest ih =>
    have hrest : ∀ f ∈ rest, specFieldMatches ctype f = true →
        F64.le F64.zero (specFieldQuality parseFloat f) = true ∧
        F64.le (specFieldQuality parseFloat f) F64.one = true :=
      fun f hf => h f (by simp [hf])
    rw [scanFields_cons_eq, scanField_spec]
    by_cases hm : specFieldMatches ctype field = true
    · have hql := h field (by simp) hm
      simp only [hm, if_true, List.filter_cons_of_pos, List.map_cons, List.foldl_cons]
      have hone : ((rest.filter (specFieldMatches ctype)).map
          (specFieldQuality parseFloat)).foldl F64.maxF (F64.maxF q F64.one) = F64.one := by
        rw [F64.maxF_one hq1]
        apply foldl_maxF_one
        intro x hx
        obtain ⟨f, hf, rfl⟩ := List.mem_map.mp hx
        have hf2 := List.mem_filter.mp hf
        exact (hrest f hf2.1 hf2.2).2
      cases hfq : firstQ (Split ';' field).tail with
      | none =>
        have hqual : specFieldQuality parseFloat field = F64.one := by
          simp [specFieldQuality, hfq]
        rw [hqual]
        simp only [Bool.not_false, Bool.and_self, if_true]
        exact hone.symm
      | some v =>
        cases hp : parseFloat v with
        | none =>
          have hqual : specFieldQuality parseFloat field = F64.one := by
            simp [specFieldQuality, hfq, hp]
          rw [hqual]
          simp only [hp, Bool.not_false, Bool.and_self, if_true]
          exact hone.symm
        | some f =>
          have hqual : specFieldQuality parseFloat field = f := by
            simp [specFieldQuality, hfq, hp]
          rw [hqual] at hql ⊢
          simp only [hp, Bool.not_true, Bool.and_false, Bool.false_eq_true, if_false]
          exact ih _ (F64.le_zero_maxF hq0) (F64.maxF_le_one hq1 hql.2) hrest
    · simp only [hm, Bool.false_eq_true, if_false, Bool.false_and]
      rw [List.filter_cons_of_neg (by simpa using hm)]
      exact ih q hq0 hq1 hrest

/-- C4, as stated, fails outside the range 0 to 1 of a quality. For
`text/html;q=2, text/html` against `text/html` the highest quality of the
matching fields is 2, but the field without `q` sets the score to 1 and ends
the loop. For `text/html;q=-1` the only matching field has quality -1, but the
score starts at 0 and is only ever raised, so it stays 0. -/
theorem C4_counterexample :
    "text/html;q=2, text/html".toList ≠ "text/html".toList ∧
    "text/html;q=2, text/html".toList ≠ "*/*".toList ∧
    "text/html;q=2, text/html".toList ≠ [] ∧
    accepts parseFloatSample "text/html;q=2, text/html".toList "text/html".toList
      = F64.fin 1 ∧
    specAccepts parseFloatSample "text/html;q=2, text/html".toList "text/html".toList
      = F64.fin 2 ∧
    accepts parseFloatSample "text/html;q=-1".toList "text/html".toList = F64.fin 0 ∧
    specAccepts parseFloatSample "text/html;q=-1".toList "text/html".toList
      = F64.fin (-1) := by
  decide

/-- C4, amended. For every `Accept` header `a` and candidate content type
`ctype` that do not hit the short-circuit, and such that the quality of every
field of `a` that matches `ctype` lies between 0 and 1, `accepts(a, ctype)`
equals the highest quality across the comma-separated fields of `a` that match
`ctype`, and 0 when no field matches; matching and quality are those of
`specFieldMatches` and `specFieldQuality`. -/
theorem C4_accepts_is_highest_quality (parseFloat : Str → Option F64) (a ctype : Str)
    (hne : a ≠ ctype) (hwild : a ≠ "*/*".toList) (hnil : a ≠ [])
    (hrange : ∀ field ∈ Split ',' a, specFieldMatches ctype field = true →
      F64.le F64.zero (specFieldQuality parseFloat field) = true ∧
      F64.le (specFieldQuality parseFloat field) F64.one = true) :
    accepts parseFloat a ctype = specAccepts parseFloat a ctype := by
  unfold accepts specAccepts
  rw [if_neg (fun h => h.elim hne (fun h => h.elim hwild hnil))]
  simp only
  rw [scanFields_spec parseFloat ctype (Split ',' a) F64.zero F64.le_zero_zero
    (by simp [F64.le, F64.lt, F64.zero, F64.one]) hrange]
  symm
  apply highest_eq_foldl
  intro x hx
  obtain ⟨f, hf, rfl⟩ := List.mem_map.mp hx
  have hf2 := List.mem_filter.mp hf
  exact (hrange f hf2.1 hf2.2).1

/-- C4, amended, at the header `application/json;q=0.5, text/xml;q=0.9` and
the content type `text/xml`: both sides are 0.9. -/
theorem C4_accepts_is_highest_quality_witness :
    accepts parseFloatSample qualityHeader "text/xml".toList = F64.fin (mkRat 9 10) ∧
    specAccepts parseFloatSample qualityHeader "text/xml".toList = F64.fin (mkRat 9 10) :=
  ⟨by decide,
   (C4_accepts_is_highest_quality parseFloatSample qualityHeader "text/xml".toList
      (by decide) (by decide) (by decide) (by decide)).symm.trans (by decide)⟩

/-! ## The abort path: what `abort` does in each case -/

theorem callWriteHeader_ok (wld : World) (s : Int)
    (h : wld.w.wroteHeader = true ∨ validStatusCode s = true) :
    wld.callWriteHeader s = (wld.writeHeader s, none) := by
  unfold World.callWriteHeader ResponseWriter.WriteHeader World.writeHeader
  rw [if_neg]
  rintro ⟨h1, h2⟩
  rcases h with h | h
  · rw [h] at h1
    exact absurd h1 (by simp)
  · rw [h] at h2
    exact absurd h2 (by simp)

theorem callWriteHeader_invalid (wld : World) (s : Int) (hw : wld.w.wroteHeader = false)
    (hs : validStatusCode s = false) :
    wld.callWriteHeader s = (wld, some (invalidWriteHeaderCode s)) := by
  unfold World.callWriteHeader ResponseWriter.WriteHeader
  rw [if_pos ⟨hw, hs⟩]

/-- A call of `WriteHeader` either records the status or panics with the
complaint of `net/http` and changes nothing. -/
theorem callWriteHeader_cases (wld : World) (s : Int) :
    wld.callWriteHeader s = (wld.writeHeader s, none) ∨
    wld.callWriteHeader s = (wld, some (invalidWriteHeaderCode s)) := by
  cases hw : wld.w.wroteHeader with
  | true => exact Or.inl (callWriteHeader_ok wld s (Or.inl hw))
  | false =>
    cases hs : validStatusCode s with
    | true => exact Or.inl (callWriteHeader_ok wld s (Or.inr hs))
    | false => exact Or.inr (callWriteHeader_invalid wld s hw hs)

theorem abortError_StatusCode (debug : Bool) (err : GoError) :
    (abortError debug err).StatusCode = (asApiError err).1.StatusCode := by
  unfold abortError
  rcases asApiError err with ⟨⟨c, s, m, d⟩, ok⟩
  simp only
  split <;> split <;> rfl

/-- The function `abort` in terms of the error it ends up with, the level
and the context it logs. -/
theorem abort_eq (e : errEncoder) (wld : World) (err : GoError) :
    e.abort wld err =
      if (wld.logAt (abortLogLvl err) (abortError e.debug err).Message
          (abortLogDetails err)).w.Written = true then
        (wld.logAt (abortLogLvl err) (abortError e.debug err).Message (abortLogDetails err),
          none)
      else
        match (wld.logAt (abortLogLvl err) (abortError e.debug err).Message
            (abortLogDetails err)).callWriteHeader (abortError e.debug err).StatusCode with
        | (wld2, some p) => (wld2, some p)
        | (wld2, none) =>
          ((e.enc.Encode wld2 (Payload.apiError (abortError e.debug err))).1, none) := by
  unfold errEncoder.abort abortError abortLogLvl abortLogDetails
  rcases asApiError err with ⟨⟨c, st, m, d⟩, ok⟩
  simp only
  have hst : (if Error.Message (Error.mk c st m d) = [] then
      (Error.mk c st m d).setMessage (StatusText (Error.mk c st m d).StatusCode)
      else Error.mk c st m d).StatusCode = st := by
    split <;> rfl
  rw [hst]
  rfl

/-- On a written response `abort` only logs. -/
theorem abort_written (e : errEncoder) (wld : World) (err : GoError)
    (h : wld.w.Written = true) :
    e.abort wld err
      = (wld.logAt (abortLogLvl err) (abortError e.debug err).Message (abortLogDetails err),
         none) := by
  rw [abort_eq, if_pos (by simpa [World.logAt] using h)]

/-- On an unwritten response, with a status code that `WriteHeader` accepts,
`abort` logs, writes the header and encodes. -/
theorem abort_unwritten (e : errEncoder) (wld : World) (err : GoError)
    (h : wld.w.Written = false)
    (hs : validStatusCode (asApiError err).1.StatusCode = true) :
    e.abort wld err
      = ((e.enc.Encode
          ((wld.logAt (abortLogLvl err) (abortError e.debug err).Message
            (abortLogDetails err)).writeHeader (abortError e.debug err).StatusCode)
          (Payload.apiError (abortError e.debug err))).1, none) := by
  rw [abort_eq, if_neg (by simpa [World.logAt] using h),
    callWriteHeader_ok _ _ (Or.inr (by rw [abortError_StatusCode]; exact hs))]

/-- On an unwritten response whose header `net/http` has not written, with a
status code that `WriteHeader` does not accept, `abort` logs and panics;
nothing is written and the encoder is not invoked. -/
theorem abort_invalid (e : errEncoder) (wld : World) (err : GoError)
    (h : wld.w.Written = false) (hh : wld.w.wroteHeader = false)
    (hs : validStatusCode (asApiError err).1.StatusCode = false) :
    e.abort wld err
      = (wld.logAt (abortLogLvl err) (abortError e.debug err).Message (abortLogDetails err),
         some (invalidWriteHeaderCode (asApiError err).1.StatusCode)) := by
  rw [abort_eq, if_neg (by simpa [World.logAt] using h),
    callWriteHeader_invalid _ _ (by simpa [World.logAt] using hh)
      (by rw [abortError_StatusCode]; exact hs), abortError_StatusCode]

/-- The three ways `abort` ends: it only logs (the response was written), it
logs, writes the header and encodes, or it logs and panics in `WriteHeader`. -/
theorem abort_cases (e : errEncoder) (wld : World) (err : GoError) :
    e.abort wld err
      = (wld.logAt (abortLogLvl err) (abortError e.debug err).Message (abortLogDetails err),
         none) ∨
    e.abort wld err
      = ((e.enc.Encode
          ((wld.logAt (abortLogLvl err) (abortError e.debug err).Message
            (abortLogDetails err)).writeHeader (abortError e.debug err).StatusCode)
          (Payload.apiError (abortError e.debug err))).1, none) ∨
    e.abort wld err
      = (wld.logAt (abortLogLvl err) (abortError e.debug err).Message (abortLogDetails err),
         some (invalidWriteHeaderCode (abortError e.debug err).StatusCode)) := by
  cases hw : wld.w.Written with
  | true => exact Or.inl (abort_written e wld err hw)
  | false =>
    rw [abort_eq, if_neg (by simpa [World.logAt] using hw)]
    rcases callWriteHeader_cases (wld.logAt (abortLogLvl err) (abortError e.debug err).Message
      (abortLogDetails err)) (abortError e.debug err).StatusCode with h | h
    · rw [h]
      exact Or.inr (Or.inl rfl)
    · rw [h]
      exact Or.inr (Or.inr rfl)

/-- The function `abort` returns, without a panic, whenever the response is
written or the status code is one `WriteHeader` accepts. -/
theorem abort_returns (e : errEncoder) (wld : World) (err : GoError)
    (h : wld.w.Written = true ∨ validStatusCode (asApiError err).1.StatusCode = true) :
    (e.abort wld err).2 = none := by
  cases hw : wld.w.Written with
  | true => rw [abort_written e wld err hw]
  | false =>
    rcases h with h | h
    · rw [hw] at h
      exact absurd h (by simp)
    · rw [abort_unwritten e wld err hw h]

/-- The call `Abort` raises the `abort` signal whenever `abort` returns. -/
theorem Abort_signal (e : errEncoder) (wld : World) (err : GoError)
    (h : wld.w.Written = true ∨ validStatusCode (asApiError err).1.StatusCode = true) :
    e.Abort wld err = ((e.abort wld err).1, Panic.abort) := by
  have h2 := abort_returns e wld err h
  unfold errEncoder.Abort
  rcases hr : e.abort wld err with ⟨wld1, p⟩
  rw [hr] at h2
  simp only at h2
  subst h2
  rfl

/-! ## C5: failed negotiation -/

theorem negotiate_cases (parseFloat : Str → Option F64) (encoders : List ContentEncoder)
    (r : Request) :
    ((∀ e ∈ encoders, F64.lt F64.zero (score parseFloat r e) = false) ∧
      negotiate parseFloat encoders r = (F64.zero, none)) ∨
    (∃ enc ∈ encoders, F64.lt F64.zero (score parseFloat r enc) = true ∧
      negotiate parseFloat encoders r = (score parseFloat r enc, some enc)) := by
  rcases selectLoop_spec parseFloat (effectiveAccept r) encoders F64.zero none
      (by simp [F64.zero]) with ⟨hnone, heq⟩ | ⟨pre, enc, post, hl, heq, hlt, _, _⟩
  · exact Or.inl ⟨hnone, heq⟩
  · exact Or.inr ⟨enc, by simp [hl], hlt, heq⟩

/-- When no entry is selected the middleware hands the 406 error to `abort`,
which returns, and then sets the `Content-Type` header to the empty content
type of the zero `ContentEncoder`. -/
theorem marshalMiddleware_failed (parseFloat : Str → Option F64) (jsonEncoder : RawEncoder)
    (encoders : List ContentEncoder) (r : Request) (wld : World)
    (heq : negotiate parseFloat encoders r = (F64.zero, none)) :
    marshalMiddleware parseFloat jsonEncoder encoders r wld
      = { wld := (errEncoder.abort { enc := Encoder.encoderFunc jsonEncoder, debug := false }
            (wld.setContentType "application/json".toList)
            (GoError.api (notAcceptable (effectiveAccept r) encoders))).1.setContentType [],
          aborted := some (notAcceptable (effectiveAccept r) encoders),
          bestEncoder := none,
          raised := none } := by
  have hzz : F64.eq F64.zero F64.zero = true := by simp [F64.eq, F64.zero]
  have hret := abort_returns { enc := Encoder.encoderFunc jsonEncoder, debug := false }
    (wld.setContentType "application/json".toList)
    (GoError.api (notAcceptable (effectiveAccept r) encoders)) (Or.inr rfl)
  simp only [marshalMiddleware, heq, hzz, if_true]
  rcases hr : errEncoder.abort { enc := Encoder.encoderFunc jsonEncoder, debug := false }
    (wld.setContentType "application/json".toList)
    (GoError.api (notAcceptable (effectiveAccept r) encoders)) with ⟨wld1, p⟩
  rw [hr] at hret
  simp only at hret
  subst hret
  rfl

/-- C5, as stated, fails for the reported header: with an empty registry and
an empty `Accept` header negotiation fails, and the details hold `*/*` under
`accept-header`, not the (empty) `Accept` header of the request. -/
theorem C5_counterexample :
    (requestWith "GET".toList []).Accept = [] ∧
    (marshalMiddleware parseFloatSample okEncoder [] (requestWith "GET".toList [])
      World.fresh).aborted
      = some (Error.mk 0 406 "unsupported request Accept header".toList
          (some [("accept-header".toList, Val.str "*/*".toList),
                 ("supported".toList, Val.strs [])])) ∧
    "*/*".toList ≠ (requestWith "GET".toList []).Accept :=
  ⟨rfl, rfl, by decide⟩

/-- C5, amended. Negotiation fails (the middleware hands an error to
`abort`) if and only if no candidate scores above 0, so it always fails on an
empty registry. When it fails, no encoder is selected and the error handed to
`abort` (on an `errEncoder` with the JSON encoder, debug off, after setting the
`Content-Type` header to `application/json`) is the `Error` with status 406,
message `unsupported request Accept header` and details holding, under
`accept-header`, the header value worked with (the `Accept` header, or `*/*`
when that header is empty) and, under `supported`, the content types of all
registry entries in registry order; `abort` returns (406 is a status code
`WriteHeader` accepts) and the middleware does not panic. -/
theorem C5_negotiation_failure (parseFloat : Str → Option F64) (jsonEncoder : RawEncoder)
    (encoders : List ContentEncoder) (r : Request) (wld : World) :
    ((marshalMiddleware parseFloat jsonEncoder encoders r wld).aborted.isSome = true ↔
      ∀ e ∈ encoders, F64.lt F64.zero (score parseFloat r e) = false) ∧
    (encoders = [] →
      (marshalMiddleware parseFloat jsonEncoder encoders r wld).aborted.isSome = true) ∧
    (∀ err, (marshalMiddleware parseFloat jsonEncoder encoders r wld).aborted = some err →
      err = Error.mk 0 406 "unsupported request Accept header".toList
          (some [("accept-header".toList,
                    Val.str (if r.Accept = [] then "*/*".toList else r.Accept)),
                 ("supported".toList, Val.strs (encoders.map ContentEncoder.ContentType))]) ∧
      (marshalMiddleware parseFloat jsonEncoder encoders r wld).bestEncoder = none ∧
      (marshalMiddleware parseFloat jsonEncoder encoders r wld).wld
        = (errEncoder.abort { enc := Encoder.encoderFunc jsonEncoder, debug := false }
            (wld.setContentType "application/json".toList) (GoError.api err)).1.setContentType
            [] ∧
      (marshalMiddleware parseFloat jsonEncoder encoders r wld).raised = none) := by
  have hzz : F64.eq F64.zero F64.zero = true := by simp [F64.eq, F64.zero]
  have hiff : (marshalMiddleware parseFloat jsonEncoder encoders r wld).aborted.isSome = true ↔
      ∀ e ∈ encoders, F64.lt F64.zero (score parseFloat r e) = false := by
    rcases negotiate_cases parseFloat encoders r with ⟨hnone, heq⟩ | ⟨enc, hmem, hlt, heq⟩
    · rw [marshalMiddleware_failed parseFloat jsonEncoder encoders r wld heq]
      simpa using hnone
    · have hm := marshalMiddleware_ok parseFloat jsonEncoder encoders r wld _ enc heq hlt
      rw [hm.2]
      constructor
      · intro h
        simp at h
      · intro h
        rw [h enc hmem] at hlt
        simp at hlt
  refine ⟨hiff, ?_, ?_⟩
  · intro he
    rw [hiff, he]
    intro e h
    simp at h
  · intro err herr
    rcases negotiate_cases parseFloat encoders r with ⟨_, heq⟩ | ⟨enc, _, hlt, heq⟩
    · rw [marshalMiddleware_failed parseFloat jsonEncoder encoders r wld heq] at herr ⊢
      simp only [Option.some.injEq] at herr
      subst herr
      exact ⟨rfl, rfl, rfl, rfl⟩
    · have hm := marshalMiddleware_ok parseFloat jsonEncoder encoders r wld _ enc heq hlt
      rw [hm.2] at herr
      simp at herr

/-- C5, amended, at the default registry of `New` with `Accept: image/png`:
no entry scores above 0 and the 406 error lists the four content types. -/
theorem C5_negotiation_failure_witness :
    (marshalMiddleware parseFloatSample okEncoder defaultEncoders
      (requestWith "GET".toList "image/png".toList) World.fresh).aborted
      = some (Error.mk 0 406 "unsupported request Accept header".toList
          (some [("accept-header".toList, Val.str "image/png".toList),
                 ("supported".toList, Val.strs ["text/html".toList,
                   "application/json".toList, "text/xml".toList,
                   "application/xml".toList])])) :=
  have h : (marshalMiddleware parseFloatSample okEncoder defaultEncoders
      (requestWith "GET".toList "image/png".toList) World.fresh).aborted.isSome = true :=
    (C5_negotiation_failure parseFloatSample okEncoder defaultEncoders
      (requestWith "GET".toList "image/png".toList) World.fresh).1.mpr (by decide)
  match hm : (marshalMiddleware parseFloatSample okEncoder defaultEncoders
      (requestWith "GET".toList "image/png".toList) World.fresh).aborted, h with
  | some err, _ =>
    congrArg some ((C5_negotiation_failure parseFloatSample okEncoder defaultEncoders
      (requestWith "GET".toList "image/png".toList) World.fresh).2.2 err hm).1

/-! ## C6 and C7: where the request parameter is decoded from -/

theorem Encode_decodes (enc : Encoder) (wld : World) (v : Payload) :
    (enc.Encode wld v).1.decodes = wld.decodes := by
  induction enc generalizing wld v with
  | encoderFunc f => simp [Encoder.Encode]
  | safeEncoder e ih =>
    simp only [Encoder.Encode]
    rcases hr : e.Encode wld v with ⟨wld1, err⟩
    have h1 := ih wld v
    rw [hr] at h1
    cases err with
    | none => exact h1
    | some err =>
      simp only
      rw [ih]
      exact h1

/-- The abort path invokes no decoder. -/
theorem abort_decodes (e : errEncoder) (wld : World) (err : GoError) :
    (e.abort wld err).1.decodes = wld.decodes := by
  rcases abort_cases e wld err with h | h | h
  · rw [h]; rfl
  · rw [h]
    simp only
    rw [Encode_decodes]
    rfl
  · rw [h]; rfl

/-- The three errors `unmarshalMiddleware` aborts with carry the status 400 or
415, so `Abort` with each of them runs `abort` and raises the abort signal. -/
theorem Abort_decodeFailure (e : errEncoder) (wld : World) (err : GoError) :
    e.Abort wld (GoError.api (decodeFailure err))
      = ((e.abort wld (GoError.api (decodeFailure err))).1, Panic.abort) :=
  Abort_signal e wld _ (Or.inr rfl)

theorem Abort_unsupportedMediaTypeCE (e : errEncoder) (wld : World) (ce : Str) :
    e.Abort wld (GoError.api (unsupportedMediaTypeCE ce))
      = ((e.abort wld (GoError.api (unsupportedMediaTypeCE ce))).1, Panic.abort) :=
  Abort_signal e wld _ (Or.inr rfl)

theorem Abort_unsupportedMediaType (e : errEncoder) (wld : World) (ct : Str)
    (decoders : List (Str × Decoder)) :
    e.Abort wld (GoError.api (unsupportedMediaType ct decoders))
      = ((e.abort wld (GoError.api (unsupportedMediaType ct decoders))).1, Panic.abort) :=
  Abort_signal e wld _ (Or.inr rfl)

/-- C6, as stated, fails for the methods other than GET that carry no body
by the rule of `getCE`: a DELETE request with `Content-Type: text/plain` to an
endpoint with a declared parameter is aborted with the 415 error
`unsupported request Content-Type` (status 415 is written), and a DELETE
request with `Content-Type: application/json` has the registered decoder
invoked on its body. -/
theorem C6_counterexample :
    unmarshalMiddleware toLowerASCII sampleParseQuery sampleDecoders true sampleErrEncoder
        (bodyRequest "DELETE".toList "text/plain".toList "x=1".toList) World.fresh
      = ((sampleErrEncoder.abort World.fresh
          (GoError.api (unsupportedMediaType "text/plain".toList sampleDecoders))).1,
         Except.error Panic.abort) ∧
    (unmarshalMiddleware toLowerASCII sampleParseQuery sampleDecoders true sampleErrEncoder
        (bodyRequest "DELETE".toList "text/plain".toList "x=1".toList)
        World.fresh).1.w.status = 415 ∧
    (unmarshalMiddleware toLowerASCII sampleParseQuery sampleDecoders true sampleErrEncoder
        (bodyRequest "DELETE".toList "application/json".toList "x=1".toList)
        World.fresh).1.decodes = [("application/json".toList, "x=1".toList)] :=
  ⟨rfl, by decide, by decide⟩

theorem unmarshal_get_ok (toLower : Str → Str) (parseQuery : Str → Except GoError Str)
    (decoders : List (Str × Decoder)) (e : errEncoder) (r : Request) (wld : World) (v : Str)
    (hget : r.Method = "GET".toList) (hv : parseQuery r.Query = Except.ok v) :
    unmarshalMiddleware toLower parseQuery decoders true e r wld
      = ({ wld with decodes := wld.decodes ++ [("query".toList, r.Query)] },
         Except.ok (some v)) := by
  simp only [unmarshalMiddleware, hget, hv]
  simp

theorem unmarshal_get_error (toLower : Str → Str) (parseQuery : Str → Except GoError Str)
    (decoders : List (Str × Decoder)) (e : errEncoder) (r : Request) (wld : World)
    (err : GoError) (hget : r.Method = "GET".toList)
    (hv : parseQuery r.Query = Except.error err) :
    unmarshalMiddleware toLower parseQuery decoders true e r wld
      = ((e.abort { wld with decodes := wld.decodes ++ [("query".toList, r.Query)] }
          (GoError.api (Error.mk 0 400 "failed to deserialize request parameter".toList
            (some [("err".toList, Val.err err)])))).1,
         Except.error Panic.abort) := by
  simp only [unmarshalMiddleware, hget, hv, Abort_decodeFailure]
  simp [decodeFailure]

/-- C6, amended. For every GET request to an endpoint that declares a
parameter type, `unmarshalMiddleware` parses the parameter from the URL query
string only: the result is the same for every request with that query and
every decoder registry (the `Content-Type` header, the registry and the body
are not consulted), the only decoding step is `param.Parse` on the query (no
body decoder is invoked), and the request is either given its parameter or
aborted with the 400 error of `decodeFailure`, never with 415. For every other
method that is not POST, PATCH or PUT only the charset check is skipped
(`getCE` is empty): the base media type is still looked up in the decoder
registry, the request is aborted with 415 when it is absent, and otherwise the
registered decoder is invoked on the body. -/
theorem C6_get_parses_query_only (toLower : Str → Str)
    (parseQuery : Str → Except GoError Str) (decoders : List (Str × Decoder))
    (e : errEncoder) (r : Request) (wld : World) :
    (r.Method = "GET".toList →
      (∀ (decoders2 : List (Str × Decoder)) (r2 : Request),
        r2.Method = "GET".toList → r2.Query = r.Query →
        unmarshalMiddleware toLower parseQuery decoders2 true e r2 wld
          = unmarshalMiddleware toLower parseQuery decoders true e r wld) ∧
      (unmarshalMiddleware toLower parseQuery decoders true e r wld).1.decodes
        = wld.decodes ++ [("query".toList, r.Query)] ∧
      (∀ v, parseQuery r.Query = Except.ok v →
        unmarshalMiddleware toLower parseQuery decoders true e r wld
          = ({ wld with decodes := wld.decodes ++ [("query".toList, r.Query)] },
             Except.ok (some v))) ∧
      (∀ err, parseQuery r.Query = Except.error err →
        unmarshalMiddleware toLower parseQuery decoders true e r wld
          = ((e.abort { wld with decodes := wld.decodes ++ [("query".toList, r.Query)] }
              (GoError.api (Error.mk 0 400 "failed to deserialize request parameter".toList
                (some [("err".toList, Val.err err)])))).1,
             Except.error Panic.abort))) ∧
    (r.Method ≠ "GET".toList →
      ¬ (r.Method = "POST".toList ∨ r.Method = "PATCH".toList ∨ r.Method = "PUT".toList) →
      getCE toLower r.Method r.ContentType = [] ∧
      (lookupDecoder decoders (split r.ContentType ";".toList).1 = none →
        unmarshalMiddleware toLower parseQuery decoders true e r wld
          = ((e.abort wld (GoError.api
              (unsupportedMediaType (split r.ContentType ";".toList).1 decoders))).1,
             Except.error Panic.abort)) ∧
      (∀ dec, lookupDecoder decoders (split r.ContentType ";".toList).1 = some dec →
        (unmarshalMiddleware toLower parseQuery decoders true e r wld).1.decodes
          = wld.decodes ++ [((split r.ContentType ";".toList).1, r.Body)])) := by
  constructor
  · intro hget
    refine ⟨?_, ?_, fun v hv => unmarshal_get_ok toLower parseQuery decoders e r wld v hget hv,
      fun err hv => unmarshal_get_error toLower parseQuery decoders e r wld err hget hv⟩
    · intro decoders2 r2 hget2 hq
      cases hp : parseQuery r.Query with
      | ok v =>
        rw [unmarshal_get_ok toLower parseQuery decoders e r wld v hget hp,
          unmarshal_get_ok toLower parseQuery decoders2 e r2 wld v hget2 (by rw [hq, hp]), hq]
      | error err =>
        rw [unmarshal_get_error toLower parseQuery decoders e r wld err hget hp,
          unmarshal_get_error toLower parseQuery decoders2 e r2 wld err hget2
            (by rw [hq, hp]), hq]
    · cases hp : parseQuery r.Query with
      | ok v => rw [unmarshal_get_ok toLower parseQuery decoders e r wld v hget hp]
      | error err =>
        rw [unmarshal_get_error toLower parseQuery decoders e r wld err hget hp]
        simp only
        rw [abort_decodes]
  · intro hnget hnbody
    have hce : getCE toLower r.Method r.ContentType = [] := by
      unfold getCE
      rw [if_pos hnbody]
    refine ⟨hce, ?_, ?_⟩
    · intro hl
      simp only [unmarshalMiddleware, hnget, hce, hl, Abort_unsupportedMediaType,
        Abort_decodeFailure]
      simp
    · intro dec hl
      simp only [unmarshalMiddleware, hnget, hce, hl, Abort_unsupportedMediaType,
        Abort_decodeFailure]
      cases hd : dec.Decode r.Body with
      | ok v => simp
      | error err => simp [abort_decodes]

/-- C6, amended, at a GET request whose `Content-Type` header names a
charset and a media type that no decoder handles: the parameter is parsed from
the query. -/
theorem C6_get_parses_query_only_witness :
    unmarshalMiddleware toLowerASCII sampleParseQuery sampleDecoders true sampleErrEncoder
        { Method := "GET".toList, Accept := [],
          ContentType := "text/plain; charset=latin1".toList,
          Query := "email=a".toList, Body := "ignored".toList } World.fresh
      = ({ World.fresh with decodes := [("query".toList, "email=a".toList)] },
         Except.ok (some "email=a".toList)) :=
  ((C6_get_parses_query_only toLowerASCII sampleParseQuery sampleDecoders sampleErrEncoder
      { Method := "GET".toList, Accept := [],
        ContentType := "text/plain; charset=latin1".toList,
        Query := "email=a".toList, Body := "ignored".toList } World.fresh).1 rfl).2.2.1
    "email=a".toList rfl

/-- C7. For every POST, PATCH or PUT request to an endpoint with a declared
parameter type: if the charset `getCE` extracts from its `Content-Type` is
non-empty and is neither `utf8` nor `utf-8`, the request is aborted (`Abort`:
`abort`, then the abort signal) with the error of status 415 and message
`unsupported request content encoding charset`; otherwise, if the base media
type (the trimmed text before the first `;`) is not a key of the decoder
registry, it is aborted with the error of status 415 and message
`unsupported request Content-Type`. In both cases no decoder has been invoked,
and the charset check comes first: a bad charset gives the charset error
whatever the registry holds. With `Content-Type: application/json;
charset=latin1` on POST (a value `ToLower` leaves unchanged) the charset is
`latin1` and the charset error is raised with no decode attempt. -/
theorem C7_unsupported_media_type (toLower : Str → Str)
    (parseQuery : Str → Except GoError Str) (decoders : List (Str × Decoder))
    (e : errEncoder) (r : Request) (wld : World)
    (hmeth : r.Method = "POST".toList ∨ r.Method = "PATCH".toList ∨ r.Method = "PUT".toList) :
    (getCE toLower r.Method r.ContentType ≠ [] →
      getCE toLower r.Method r.ContentType ≠ "utf8".toList →
      getCE toLower r.Method r.ContentType ≠ "utf-8".toList →
      unmarshalMiddleware toLower parseQuery decoders true e r wld
        = ((e.abort wld (GoError.api
            (Error.mk 0 415 "unsupported request content encoding charset".toList
              (some [("charset".toList, Val.str (getCE toLower r.Method r.ContentType)),
                     ("available".toList, Val.strs ["UTF-8".toList])])))).1,
           Except.error Panic.abort) ∧
      (unmarshalMiddleware toLower parseQuery decoders true e r wld).1.decodes
        = wld.decodes) ∧
    ((getCE toLower r.Method r.ContentType = [] ∨
        getCE toLower r.Method r.ContentType = "utf8".toList ∨
        getCE toLower r.Method r.ContentType = "utf-8".toList) →
      lookupDecoder decoders (split r.ContentType ";".toList).1 = none →
      unmarshalMiddleware toLower parseQuery decoders true e r wld
        = ((e.abort wld (GoError.api
            (Error.mk 0 415 "unsupported request Content-Type".toList
              (some [("content-type".toList, Val.str (split r.ContentType ";".toList).1),
                     ("available".toList, Val.strs (decoders.map Prod.fst))])))).1,
           Except.error Panic.abort) ∧
      (unmarshalMiddleware toLower parseQuery decoders true e r wld).1.decodes
        = wld.decodes) ∧
    (r.Method = "POST".toList →
      r.ContentType = "application/json; charset=latin1".toList →
      toLower "application/json; charset=latin1".toList
        = "application/json; charset=latin1".toList →
      getCE toLower r.Method r.ContentType = "latin1".toList ∧
      unmarshalMiddleware toLower parseQuery decoders true e r wld
        = ((e.abort wld (GoError.api (unsupportedMediaTypeCE "latin1".toList))).1,
           Except.error Panic.abort) ∧
      (unmarshalMiddleware toLower parseQuery decoders true e r wld).1.decodes
        = wld.decodes) := by
  have hnget : r.Method ≠ "GET".toList := by
    intro h
    rw [h] at hmeth
    revert hmeth
    decide
  have hbad : ∀ ce, getCE toLower r.Method r.ContentType = ce → ce ≠ [] →
      ce ≠ "utf8".toList → ce ≠ "utf-8".toList →
      unmarshalMiddleware toLower parseQuery decoders true e r wld
        = ((e.abort wld (GoError.api (unsupportedMediaTypeCE ce))).1, Except.error Panic.abort) := by
    intro ce hce h1 h2 h3
    have hcond : ¬ (ce = "utf8".toList ∨ ce = "utf-8".toList ∨ ce = []) := by
      rintro (h | h | h)
      · exact h2 h
      · exact h3 h
      · exact h1 h
    simp only [unmarshalMiddleware, hnget, hce, Abort_unsupportedMediaTypeCE]
    rw [if_neg (by simp), if_neg (by simp), if_pos (by simpa using hcond)]
  refine ⟨?_, ?_, ?_⟩
  · intro h1 h2 h3
    have := hbad _ rfl h1 h2 h3
    refine ⟨this, ?_⟩
    rw [this]
    simp only
    rw [abort_decodes]
  · intro hgood hl
    have hcond : (getCE toLower r.Method r.ContentType = "utf8".toList ∨
        getCE toLower r.Method r.ContentType = "utf-8".toList ∨
        getCE toLower r.Method r.ContentType = []) := by
      rcases hgood with h | h | h
      · exact Or.inr (Or.inr h)
      · exact Or.inl h
      · exact Or.inr (Or.inl h)
    have : unmarshalMiddleware toLower parseQuery decoders true e r wld
        = ((e.abort wld (GoError.api
            (unsupportedMediaType (split r.ContentType ";".toList).1 decoders))).1,
           Except.error Panic.abort) := by
      simp only [unmarshalMiddleware, hnget, Abort_unsupportedMediaType, hl]
      rw [if_neg (by simp), if_neg (by simp), if_neg (not_not.mpr hcond)]
    refine ⟨this, ?_⟩
    rw [this]
    simp only
    rw [abort_decodes]
  · intro hpost hct hlow
    have hce : getCE toLower r.Method r.ContentType = "latin1".toList := by
      unfold getCE
      rw [hpost, hct, hlow]
      decide
    have := hbad _ hce (by decide) (by decide) (by decide)
    refine ⟨hce, this, ?_⟩
    rw [this]
    simp only
    rw [abort_decodes]

/-- C7 at a POST request with `Content-Type: application/json;
charset=latin1` on a fresh response, with a decoder registered for
`application/json`: the request is aborted, status 415 is written and no
decoder has been invoked. -/
theorem C7_unsupported_media_type_witness :
    (unmarshalMiddleware toLowerASCII sampleParseQuery sampleDecoders true sampleErrEncoder
        (bodyRequest "POST".toList "application/json; charset=latin1".toList "x".toList)
        World.fresh).2 = Except.error Panic.abort ∧
    (unmarshalMiddleware toLowerASCII sampleParseQuery sampleDecoders true sampleErrEncoder
        (bodyRequest "POST".toList "application/json; charset=latin1".toList "x".toList)
        World.fresh).1.w.status = 415 ∧
    (unmarshalMiddleware toLowerASCII sampleParseQuery sampleDecoders true sampleErrEncoder
        (bodyRequest "POST".toList "application/json; charset=latin1".toList "x".toList)
        World.fresh).1.decodes = [] :=
  have h := (C7_unsupported_media_type toLowerASCII sampleParseQuery sampleDecoders
    sampleErrEncoder
    (bodyRequest "POST".toList "application/json; charset=latin1".toList "x".toList)
    World.fresh (Or.inl rfl)).2.2 rfl rfl (by decide)
  ⟨by rw [h.2.1], by rw [h.2.1]; decide, h.2.2⟩

/-! ## C8 and C9: the abort path -/

theorem Write_written (rw : ResponseWriter) (b : Str) (h : rw.Written = true) :
    (rw.Write b).Written = true := by
  simp only [ResponseWriter.Write, h, if_true]
  exact h

theorem foldl_Write_written (chunks : List Str) (rw : ResponseWriter)
    (h : rw.Written = true) : (chunks.foldl ResponseWriter.Write rw).Written = true := by
  induction chunks generalizing rw with
  | nil => exact h
  | cons c cs ih => exact ih _ (Write_written rw c h)

/-- An encoder never turns a written response into an unwritten one. -/
theorem Encode_written (enc : Encoder) (wld : World) (v : Payload)
    (h : wld.w.Written = true) : (enc.Encode wld v).1.w.Written = true := by
  induction enc generalizing wld v with
  | encoderFunc f =>
    simp only [Encoder.Encode]
    exact foldl_Write_written _ _ h
  | safeEncoder e ih =>
    simp only [Encoder.Encode]
    rcases hr : e.Encode wld v with ⟨wld1, err⟩
    have h1 := ih wld v h
    rw [hr] at h1
    cases err with
    | none => exact h1
    | some err => exact ih _ _ h1

/-- An encoder is invoked on the value it is given, and possibly on more. -/
theorem Encode_calls (enc : Encoder) (wld : World) (v : Payload) :
    ∃ extra, (enc.Encode wld v).1.calls = wld.calls ++ v :: extra := by
  induction enc generalizing wld v with
  | encoderFunc f => exact ⟨[], by simp [Encoder.Encode]⟩
  | safeEncoder e ih =>
    simp only [Encoder.Encode]
    rcases hr : e.Encode wld v with ⟨wld1, err⟩
    obtain ⟨x1, h1⟩ := ih wld v
    rw [hr] at h1
    cases err with
    | none => exact ⟨x1, h1⟩
    | some err =>
      obtain ⟨x2, h2⟩ := ih (wld1.logAt Lvl.error "failed to encode response".toList
        [("err".toList, Val.err err)]) (Payload.apiError (safeEncoderFallback err))
      refine ⟨x1 ++ Payload.apiError (safeEncoderFallback err) :: x2, ?_⟩
      simp only
      rw [h2]
      simp only [World.logAt]
      rw [h1]
      simp

/-- An encoder only adds to the log. -/
theorem Encode_log (enc : Encoder) (wld : World) (v : Payload) :
    ∃ extra, (enc.Encode wld v).1.log = wld.log ++ extra := by
  induction enc generalizing wld v with
  | encoderFunc f => exact ⟨[], by simp [Encoder.Encode]⟩
  | safeEncoder e ih =>
    simp only [Encoder.Encode]
    rcases hr : e.Encode wld v with ⟨wld1, err⟩
    obtain ⟨x1, h1⟩ := ih wld v
    rw [hr] at h1
    cases err with
    | none => exact ⟨x1, h1⟩
    | some err =>
      obtain ⟨x2, h2⟩ := ih (wld1.logAt Lvl.error "failed to encode response".toList
        [("err".toList, Val.err err)]) (Payload.apiError (safeEncoderFallback err))
      refine ⟨x1 ++ LogEntry.mk Lvl.error "failed to encode response".toList
        [("err".toList, Val.err err)] :: x2, ?_⟩
      simp only
      rw [h2]
      simp only [World.logAt]
      rw [h1]
      simp

/-- On an unwritten response, with a status code `WriteHeader` accepts,
`abort` logs, writes the status, encodes and returns: the encoder is invoked on
the `*Error` and the log gains the entry. -/
theorem abort_unwritten_effects (e : errEncoder) (wld : World) (err : GoError)
    (hw : wld.w.Written = false)
    (hs : validStatusCode (asApiError err).1.StatusCode = true) :
    e.abort wld err
      = ((e.enc.Encode
          ((wld.logAt (abortLogLvl err) (abortError e.debug err).Message
            (abortLogDetails err)).writeHeader (abortError e.debug err).StatusCode)
          (Payload.apiError (abortError e.debug err))).1, none) ∧
    (∃ extra, (e.abort wld err).1.calls
      = wld.calls ++ Payload.apiError (abortError e.debug err) :: extra) ∧
    (∃ extra, (e.abort wld err).1.log
      = wld.log ++ LogEntry.mk (abortLogLvl err) (abortError e.debug err).Message
          (abortLogDetails err) :: extra) := by
  rw [abort_unwritten e wld err hw hs]
  refine ⟨rfl, ?_, ?_⟩
  · obtain ⟨extra, h⟩ := Encode_calls e.enc
      ((wld.logAt (abortLogLvl err) (abortError e.debug err).Message
        (abortLogDetails err)).writeHeader (abortError e.debug err).StatusCode)
      (Payload.apiError (abortError e.debug err))
    exact ⟨extra, h⟩
  · obtain ⟨extra, h⟩ := Encode_log e.enc
      ((wld.logAt (abortLogLvl err) (abortError e.debug err).Message
        (abortLogDetails err)).writeHeader (abortError e.debug err).StatusCode)
      (Payload.apiError (abortError e.debug err))
    refine ⟨extra, ?_⟩
    simp only
    rw [h]
    simp [World.logAt, World.writeHeader]

/-- A status code `WriteHeader` accepts is not 0. -/
theorem validStatusCode_ne_zero (s : Int) (h : validStatusCode s = true) : s ≠ 0 := by
  unfold validStatusCode at h
  simp only [decide_eq_true_eq] at h
  omega

/-- After `abort` on an error with a status code `WriteHeader` accepts the
response is written. -/
theorem abort_leaves_written (e : errEncoder) (wld : World) (err : GoError)
    (hs : validStatusCode (asApiError err).1.StatusCode = true) :
    (e.abort wld err).1.w.Written = true := by
  cases hw : wld.w.Written with
  | true =>
    rw [abort_written e wld err hw]
    exact hw
  | false =>
    rw [abort_unwritten e wld err hw hs]
    apply Encode_written
    simp only [World.writeHeader, World.logAt, ResponseWriter.Written, abortError_StatusCode]
    simpa using validStatusCode_ne_zero _ hs

/-- C8, as stated, fails for an error whose status code `WriteHeader` does
not accept: `net/http` panics for a code outside 100..999 when the header is
not yet written. On a fresh response (nothing written) `abort` of
`Error{StatusCode: 0, Message: "custom"}` logs its entry and then panics with
`invalid WriteHeader code 0`: no status is recorded, no body is written and the
encoder is not invoked, although nothing had been written to the response. The
same holds for the codes 99 and 1000. -/
theorem C8_counterexample :
    World.fresh.w.Written = false ∧
    sampleErrEncoder.abort World.fresh (GoError.api (Error.mk 0 0 "custom".toList none))
      = ({ w := ResponseWriter.fresh, log := [LogEntry.mk Lvl.warn "custom".toList []],
           calls := [], decodes := [] },
         some (Panic.other "invalid WriteHeader code 0".toList)) ∧
    sampleErrEncoder.abort World.fresh (GoError.api (Error.mk 0 99 "custom".toList none))
      = ({ w := ResponseWriter.fresh, log := [LogEntry.mk Lvl.warn "custom".toList []],
           calls := [], decodes := [] },
         some (Panic.other "invalid WriteHeader code 99".toList)) ∧
    sampleErrEncoder.abort World.fresh (GoError.api (Error.mk 0 1000 "custom".toList none))
      = ({ w := ResponseWriter.fresh, log := [LogEntry.mk Lvl.warn "custom".toList []],
           calls := [], decodes := [] },
         some (Panic.other "invalid WriteHeader code 1000".toList)) :=
  ⟨rfl, rfl, rfl, rfl⟩

/-- C8, amended. For every response state and every error, `abort` logs one
entry. On a written response (`Written()` is true) it does nothing else and
returns: writer and encoder calls are unchanged. On a response to which nothing
has yet been written, with a status code that `WriteHeader` accepts (100 to
999), it logs, calls `WriteHeader` with the status code, invokes the encoder on
the `*Error` and returns. On a response whose header is not yet written, with a
status code outside 100..999, it logs and then panics in `WriteHeader` with
`invalid WriteHeader code N`: writer and encoder calls are unchanged.
Consequently, for every error `err` whose status code is in 100..999 and every
error `err2`, `abort(err)` and then `abort(err2)` on an unwritten response
leaves the writer (status and body) and the encoder calls as `abort(err)` alone
left them, while the second call adds its log entry and returns. -/
theorem C8_abort_writes_once (e : errEncoder) (wld : World) (err err2 : GoError) :
    (wld.w.Written = true →
      e.abort wld err
        = (wld.logAt (abortLogLvl err) (abortError e.debug err).Message
            (abortLogDetails err), none) ∧
      (e.abort wld err).1.w = wld.w ∧ (e.abort wld err).1.calls = wld.calls) ∧
    (wld.w.Written = false → validStatusCode (asApiError err).1.StatusCode = true →
      e.abort wld err
        = ((e.enc.Encode
            ((wld.logAt (abortLogLvl err) (abortError e.debug err).Message
              (abortLogDetails err)).writeHeader (abortError e.debug err).StatusCode)
            (Payload.apiError (abortError e.debug err))).1, none) ∧
      (∃ extra, (e.abort wld err).1.calls
        = wld.calls ++ Payload.apiError (abortError e.debug err) :: extra) ∧
      (∃ extra, (e.abort wld err).1.log
        = wld.log ++ LogEntry.mk (abortLogLvl err) (abortError e.debug err).Message
            (abortLogDetails err) :: extra)) ∧
    (wld.w.Written = false → wld.w.wroteHeader = false →
      validStatusCode (asApiError err).1.StatusCode = false →
      e.abort wld err
        = (wld.logAt (abortLogLvl err) (abortError e.debug err).Message
            (abortLogDetails err),
           some (invalidWriteHeaderCode (asApiError err).1.StatusCode)) ∧
      (e.abort wld err).1.w = wld.w ∧ (e.abort wld err).1.calls = wld.calls) ∧
    (wld.w.Written = false → validStatusCode (asApiError err).1.StatusCode = true →
      (e.abort (e.abort wld err).1 err2).2 = none ∧
      (e.abort (e.abort wld err).1 err2).1.w = (e.abort wld err).1.w ∧
      (e.abort (e.abort wld err).1 err2).1.calls = (e.abort wld err).1.calls ∧
      (e.abort (e.abort wld err).1 err2).1.log
        = (e.abort wld err).1.log ++ [LogEntry.mk (abortLogLvl err2)
            (abortError e.debug err2).Message (abortLogDetails err2)]) := by
  refine ⟨?_, ?_, ?_, ?_⟩
  · intro hw
    rw [abort_written e wld err hw]
    exact ⟨rfl, rfl, rfl⟩
  · intro hw hs
    exact abort_unwritten_effects e wld err hw hs
  · intro hw hh hs
    rw [abort_invalid e wld err hw hh hs]
    exact ⟨rfl, rfl, rfl⟩
  · intro _ hs
    rw [abort_written e (e.abort wld err).1 err2 (abort_leaves_written e wld err hs)]
    exact ⟨rfl, rfl, rfl, rfl⟩

/-- C8, amended, on a fresh response with the stand-in encoder: `abort` of an
error that is not an `*Error` (status 500) and then `abort` of a 404 error
leaves the status 500 and the single body chunk of the first call, and two log
entries. -/
theorem C8_abort_writes_once_witness :
    World.fresh.w.Written = false ∧
    validStatusCode (asApiError (GoError.other "first".toList)).1.StatusCode = true ∧
    (sampleErrEncoder.abort
      (sampleErrEncoder.abort World.fresh (GoError.other "first".toList)).1
      (GoError.api (Error.mk 0 404 [] none))).1.w
      = { status := 500, body := "ok".toList, contentType := [], wroteHeader := true } ∧
    (sampleErrEncoder.abort
      (sampleErrEncoder.abort World.fresh (GoError.other "first".toList)).1
      (GoError.api (Error.mk 0 404 [] none))).1.log.length = 2 :=
  have h := (C8_abort_writes_once sampleErrEncoder World.fresh (GoError.other "first".toList)
    (GoError.api (Error.mk 0 404 [] none))).2.2.2 rfl rfl
  ⟨rfl, rfl, h.2.1.trans rfl, by rw [h.2.2.2]; rfl⟩

/-- C9, as stated, fails for the logged context: outside debug mode the
details of the wrapped error are removed from the serialized `*Error` only.
The context handed to the logger was taken from the details before they were
set to nil, so the log entry still carries the error text under `err`. -/
theorem C9_counterexample :
    sampleErrEncoder.debug = false ∧
    (sampleErrEncoder.abort World.fresh (GoError.other "secret".toList)).1.log
      = [LogEntry.mk Lvl.error "Internal Server Error".toList
          [("err".toList, Val.str "secret".toList)]] ∧
    (sampleErrEncoder.abort World.fresh (GoError.other "secret".toList)).1.calls
      = [Payload.apiError (Error.mk 0 500 "Internal Server Error".toList none)] :=
  ⟨rfl, rfl, rfl⟩

/-- C9, amended. For every error value that is not an `*Error` (known by
its text `msg`), `abort` on a not-yet-written response logs one entry at error
level with the message `Internal Server Error` and the context `{err: msg}`, in
debug mode and outside it alike, writes status 500, invokes the encoder on
the `*Error` with status 500, message `Internal Server Error` and details
`{err: msg}` in debug mode and nil details outside debug mode, and returns: the
details are suppressed in the serialized payload only, not in the logged
context. -/
theorem C9_abort_wraps_plain_error (e : errEncoder) (wld : World) (msg : Str)
    (hw : wld.w.Written = false) :
    e.abort wld (GoError.other msg)
      = ((e.enc.Encode
          ((wld.logAt Lvl.error "Internal Server Error".toList
            [("err".toList, Val.str msg)]).writeHeader 500)
          (Payload.apiError (Error.mk 0 500 "Internal Server Error".toList
            (if e.debug = true then some [("err".toList, Val.str msg)] else none)))).1,
         none) ∧
    (∃ extra, (e.abort wld (GoError.other msg)).1.calls
      = wld.calls ++ Payload.apiError (Error.mk 0 500 "Internal Server Error".toList
          (if e.debug = true then some [("err".toList, Val.str msg)] else none)) :: extra) ∧
    (∃ extra, (e.abort wld (GoError.other msg)).1.log
      = wld.log ++ LogEntry.mk Lvl.error "Internal Server Error".toList
          [("err".toList, Val.str msg)] :: extra) := by
  have hlvl : abortLogLvl (GoError.other msg) = Lvl.error := rfl
  have hdet : abortLogDetails (GoError.other msg) = [("err".toList, Val.str msg)] := rfl
  have herr : abortError e.debug (GoError.other msg)
      = Error.mk 0 500 "Internal Server Error".toList
          (if e.debug = true then some [("err".toList, Val.str msg)] else none) := by
    cases hd : e.debug <;> rfl
  have h := abort_unwritten_effects e wld (GoError.other msg) hw rfl
  rw [hlvl, hdet, herr] at h
  exact h

/-- C9, amended, in debug mode on a fresh response: the encoder is invoked
once, on the `*Error` whose details hold the error text. -/
theorem C9_abort_wraps_plain_error_witness :
    World.fresh.w.Written = false ∧
    (errEncoder.abort { enc := Encoder.encoderFunc okEncoder, debug := true } World.fresh
      (GoError.other "boom".toList)).1.calls
      = [Payload.apiError (Error.mk 0 500 "Internal Server Error".toList
          (some [("err".toList, Val.str "boom".toList)]))] :=
  ⟨rfl,
   (congrArg (fun r => r.1.calls)
      (C9_abort_wraps_plain_error { enc := Encoder.encoderFunc okEncoder, debug := true }
        World.fresh "boom".toList rfl).1).trans rfl⟩

/-! ## C10: the safe encoder -/

/-- C10. For every underlying encoder function `f`, world and value `v`: if
`f` encodes `v` without error, the encoder returned by `safeEncoder` returns no
error, has invoked `f` exactly once (on `v`) and has logged nothing; if `f`
fails on `v` with `err`, it logs the failure once (error level,
`failed to encode response`, context `{err: err}`), invokes `f` exactly one
more time, on the same writer, with the fallback `*Error`, and returns `err`
itself, whatever the fallback call returns. -/
theorem C10_safeEncoder_fallback (f : RawEncoder) (wld : World) (v : Payload) :
    ((f wld.calls v).2 = none →
      ((Encoder.safeEncoder (Encoder.encoderFunc f)).Encode wld v).2 = none ∧
      ((Encoder.safeEncoder (Encoder.encoderFunc f)).Encode wld v).1.calls
        = wld.calls ++ [v] ∧
      ((Encoder.safeEncoder (Encoder.encoderFunc f)).Encode wld v).1.log = wld.log ∧
      ((Encoder.safeEncoder (Encoder.encoderFunc f)).Encode wld v).1.w
        = (f wld.calls v).1.foldl ResponseWriter.Write wld.w) ∧
    (∀ err, (f wld.calls v).2 = some err →
      ((Encoder.safeEncoder (Encoder.encoderFunc f)).Encode wld v).2 = some err ∧
      ((Encoder.safeEncoder (Encoder.encoderFunc f)).Encode wld v).1.calls
        = wld.calls ++ [v, Payload.apiError (safeEncoderFallback err)] ∧
      ((Encoder.safeEncoder (Encoder.encoderFunc f)).Encode wld v).1.log
        = wld.log ++ [LogEntry.mk Lvl.error "failed to encode response".toList
            [("err".toList, Val.err err)]] ∧
      ((Encoder.safeEncoder (Encoder.encoderFunc f)).Encode wld v).1.w
        = (f (wld.calls ++ [v]) (Payload.apiError (safeEncoderFallback err))).1.foldl
            ResponseWriter.Write ((f wld.calls v).1.foldl ResponseWriter.Write wld.w)) := by
  rcases hf : f wld.calls v with ⟨chunks, r⟩
  constructor
  · intro hr
    simp only at hr
    subst hr
    simp [Encoder.Encode, hf]
  · intro err hr
    simp only at hr
    subst hr
    simp [Encoder.Encode, hf, World.logAt]

/-- C10 at the stand-in encoders on a fresh world: the encoder that succeeds
is invoked once and nothing is logged; the encoder that fails is invoked
twice, the failure is logged once and its error is returned. -/
theorem C10_safeEncoder_fallback_witness :
    (((Encoder.safeEncoder (Encoder.encoderFunc okEncoder)).Encode World.fresh
        (Payload.data "v".toList)).2 = none ∧
      ((Encoder.safeEncoder (Encoder.encoderFunc okEncoder)).Encode World.fresh
        (Payload.data "v".toList)).1.calls = [Payload.data "v".toList] ∧
      ((Encoder.safeEncoder (Encoder.encoderFunc okEncoder)).Encode World.fresh
        (Payload.data "v".toList)).1.log = []) ∧
    (((Encoder.safeEncoder (Encoder.encoderFunc failingEncoder)).Encode World.fresh
        (Payload.data "v".toList)).2 = some (GoError.other "boom".toList) ∧
      ((Encoder.safeEncoder (Encoder.encoderFunc failingEncoder)).Encode World.fresh
        (Payload.data "v".toList)).1.calls
        = [Payload.data "v".toList,
           Payload.apiError (safeEncoderFallback (GoError.other "boom".toList))]) :=
  have h1 := (C10_safeEncoder_fallback okEncoder World.fresh (Payload.data "v".toList)).1 rfl
  have h2 := (C10_safeEncoder_fallback failingEncoder World.fresh (Payload.data "v".toList)).2
    (GoError.other "boom".toList) rfl
  ⟨⟨h1.1, h1.2.1, h1.2.2.1⟩, ⟨h2.1, h2.2.1⟩⟩

/-! ## C11: the fallback payload of the safe encoder -/

/-- C11, as stated, fails: the fallback `*Error` is built with the details
`{err: err}`. For an endpoint outside debug mode whose encoder fails with
`boom`, the second value the encoder is invoked on has status 500, the message
`failed to encode response` and details that hold the encode error, not nil
details. -/
theorem C11_counterexample :
    (endpointResponse false
      { ContentType := "application/json".toList,
        Encoder := Encoder.encoderFunc failingEncoder }).errEnc.debug = false ∧
    ((endpointResponse false
      { ContentType := "application/json".toList,
        Encoder := Encoder.encoderFunc failingEncoder }).Encode World.fresh
      (Payload.data "v".toList)).1.calls
      = [Payload.data "v".toList,
         Payload.apiError (Error.mk 0 500 "failed to encode response".toList
           (some [("err".toList, Val.err (GoError.other "boom".toList))]))] ∧
    (Error.mk 0 500 "failed to encode response".toList
      (some [("err".toList, Val.err (GoError.other "boom".toList))])).Details ≠ none :=
  ⟨rfl, rfl, by simp [Error.Details]⟩

/-- C11, amended. For every underlying encoder function that fails on a
value with `err`, in an endpoint with any debug flag, `Encode` of the response
invokes the encoder on the value and then on a fallback `*Error` with status
500, the message `failed to encode response` and no error code; for an endpoint
in debug mode the details of that payload are `{err: err}`. -/
theorem C11_fallback_payload (debug : Bool) (ct : Str) (f : RawEncoder) (wld : World)
    (v : Payload) (err : GoError) (hf : (f wld.calls v).2 = some err) :
    ∃ payload : Error,
      ((endpointResponse debug
        { ContentType := ct, Encoder := Encoder.encoderFunc f }).Encode wld v).1.calls
        = wld.calls ++ [v, Payload.apiError payload] ∧
      payload.StatusCode = 500 ∧
      payload.Message = "failed to encode response".toList ∧
      payload.ErrorCode = 0 ∧
      (debug = true → payload.Details = some [("err".toList, Val.err err)]) := by
  refine ⟨safeEncoderFallback err, ?_, rfl, rfl, rfl, fun _ => rfl⟩
  rcases hr : f wld.calls v with ⟨chunks, r⟩
  rw [hr] at hf
  simp only at hf
  subst hf
  simp [endpointResponse, responseMiddleware, response.Encode, Encoder.Encode, hr,
    World.logAt]

/-- C11, amended, at an endpoint in debug mode whose encoder fails with
`boom` on a fresh world: the fallback payload holds the error in its
details. -/
theorem C11_fallback_payload_witness :
    (failingEncoder World.fresh.calls (Payload.data "v".toList)).2
      = some (GoError.other "boom".toList) ∧
    ∃ payload : Error,
      ((endpointResponse true
        { ContentType := "text/xml".toList,
          Encoder := Encoder.encoderFunc failingEncoder }).Encode World.fresh
        (Payload.data "v".toList)).1.calls
        = World.fresh.calls ++ [Payload.data "v".toList, Payload.apiError payload] ∧
      payload.StatusCode = 500 ∧
      payload.Message = "failed to encode response".toList ∧
      payload.ErrorCode = 0 ∧
      (true = true →
        payload.Details = some [("err".toList, Val.err (GoError.other "boom".toList))]) :=
  ⟨rfl, C11_fallback_payload true "text/xml".toList failingEncoder World.fresh
    (Payload.data "v".toList) (GoError.other "boom".toList) rfl⟩

/-! ## C12: the abort signal stops at the abort controller -/

theorem errEncoderMiddleware_abort (debug : Bool) (enc : Encoder) (next : errEncoder → Stage)
    (wld wld1 : World) (h : next { enc := enc, debug := debug } wld = (wld1, some Panic.abort)) :
    errEncoderMiddleware debug enc next wld = (wld1, none) := by
  simp [errEncoderMiddleware, h]

theorem errEncoderMiddleware_other (debug : Bool) (enc : Encoder) (next : errEncoder → Stage)
    (wld wld1 : World) (p : Panic) (hp : p ≠ Panic.abort)
    (h : next { enc := enc, debug := debug } wld = (wld1, some p)) :
    errEncoderMiddleware debug enc next wld = (wld1, some p) := by
  cases p with
  | abort => exact absurd rfl hp
  | other cause => simp [errEncoderMiddleware, h]

theorem recoveryMiddleware_quiet (onPanic : Panic → Stage) (next : Stage) (wld wld1 : World)
    (h : next wld = (wld1, none)) : recoveryMiddleware onPanic next wld = (wld1, none) := by
  simp [recoveryMiddleware, h]

theorem recoveryMiddleware_panic (onPanic : Panic → Stage) (next : Stage) (wld wld1 : World)
    (p : Panic) (h : next wld = (wld1, some p)) :
    recoveryMiddleware onPanic next wld = onPanic p wld1 := by
  simp [recoveryMiddleware, h]

/-- The panic of `WriteHeader` is not the `abort` signal. -/
theorem invalidWriteHeaderCode_ne_abort (s : Int) : invalidWriteHeaderCode s ≠ Panic.abort := by
  intro h
  exact Panic.noConfusion h

/-- What follows a call of `Abort` in a handler does not run: the call
raises a value, whatever the error. -/
theorem abortStage_seq (e : errEncoder) (err : GoError) (rest : Stage) (wld : World) :
    Stage.seq (abortStage e err) rest wld
      = ((e.Abort wld err).1, some (e.Abort wld err).2) := by
  unfold Stage.seq abortStage
  rcases e.Abort wld err with ⟨wld1, p⟩
  rfl

/-- The call `Abort` raises the panic of `WriteHeader` when `abort` does. -/
theorem Abort_invalid (e : errEncoder) (wld : World) (err : GoError)
    (h : wld.w.Written = false) (hh : wld.w.wroteHeader = false)
    (hs : validStatusCode (asApiError err).1.StatusCode = false) :
    e.Abort wld err
      = (wld.logAt (abortLogLvl err) (abortError e.debug err).Message (abortLogDetails err),
         invalidWriteHeaderCode (asApiError err).1.StatusCode) := by
  unfold errEncoder.Abort
  rw [abort_invalid e wld err h hh hs]

/-- C12, as stated, fails for an error whose status code `WriteHeader` does
not accept: `abort` panics inside `Abort`, so the `abort` signal is never
raised, and the value raised instead is not absorbed by the abort controller.
On a fresh response, a handler below `errEncoderMiddleware` that calls
`Abort(&Error{Message: "x"})` (status code 0) raises `invalid WriteHeader code
0`; the recovery middleware around the controller invokes its handler, which
logs the critical entry `handler crashed` and writes the fault response. -/
theorem C12_counterexample :
    errEncoder.Abort { enc := Encoder.encoderFunc okEncoder, debug := false } World.fresh
        (GoError.api (Error.mk 0 0 "x".toList none))
      = ({ w := ResponseWriter.fresh, log := [LogEntry.mk Lvl.warn "x".toList []],
           calls := [], decodes := [] },
         Panic.other "invalid WriteHeader code 0".toList) ∧
    defaultRecoveryMiddleware false sampleFrames okEncoder
        (errEncoderMiddleware false (Encoder.encoderFunc okEncoder)
          (fun e => abortStage e (GoError.api (Error.mk 0 0 "x".toList none))))
        World.fresh
      = ({ w := { status := 200, body := "ok".toList, contentType := [],
                  wroteHeader := true },
           log := [LogEntry.mk Lvl.warn "x".toList [],
                   LogEntry.mk Lvl.crit "handler crashed".toList
                     [("panic".toList, Val.str "invalid WriteHeader code 0".toList),
                      ("stack".toList, Val.str "[main.handler martini.Invoke]".toList)],
                   LogEntry.mk Lvl.debug "main.handler".toList
                     [("panic".toList, Val.str "invalid WriteHeader code 0".toList)],
                   LogEntry.mk Lvl.debug "martini.Invoke".toList
                     [("panic".toList, Val.str "invalid WriteHeader code 0".toList)]],
           calls := [Payload.apiError (Error.mk 0 500 "Internal Server Error".toList none)],
           decodes := [] }, none) :=
  ⟨rfl, rfl⟩

/-- C12, amended. For every stage below the abort controller (`below`, what
`c.Next()` runs inside the handler of `errEncoderMiddleware`) and every error:
`Abort` performs `abort` and raises a value in every case, so whatever follows
the call does not run; the value is the `abort` signal whenever `abort`
returns, which it does when the response is already written or the status code
of the error is one `WriteHeader` accepts (100 to 999), and it is the panic of
`WriteHeader` (`invalid WriteHeader code N`) when the header is not yet written
and the status code is outside 100..999. When the stage is `first`, then
`Abort(err)`, then `rest`, and `first` does not panic: in the first case the
handler of `errEncoderMiddleware` returns normally with the world `abort` left,
and the recovery middleware around it returns that same world without invoking
its panic handler (no critical log, no fault response, nothing raised); in the
second case the panic of `WriteHeader` leaves `errEncoderMiddleware` and the
recovery middleware invokes its panic handler with it. The `abort` signal
raised below the controller is always absorbed, and every raised value that is
not the `abort` signal leaves `errEncoderMiddleware` unchanged and reaches the
panic handler of the recovery middleware. -/
theorem C12_abort_signal_absorbed (debug : Bool) (enc : Encoder)
    (onPanic : Panic → Stage) (wld : World) :
    (∀ (e : errEncoder) (err : GoError) (rest : Stage),
      Stage.seq (abortStage e err) rest wld
        = ((e.Abort wld err).1, some (e.Abort wld err).2) ∧
      ((wld.w.Written = true ∨ validStatusCode (asApiError err).1.StatusCode = true) →
        (e.abort wld err).2 = none ∧
        e.Abort wld err = ((e.abort wld err).1, Panic.abort) ∧
        Stage.seq (abortStage e err) rest wld = ((e.abort wld err).1, some Panic.abort)) ∧
      (wld.w.Written = false → wld.w.wroteHeader = false →
        validStatusCode (asApiError err).1.StatusCode = false →
        e.Abort wld err
          = (wld.logAt (abortLogLvl err) (abortError e.debug err).Message
              (abortLogDetails err),
             invalidWriteHeaderCode (asApiError err).1.StatusCode))) ∧
    (∀ (first rest : errEncoder → Stage) (err : GoError) (wld1 : World),
      first { enc := enc, debug := debug } wld = (wld1, none) →
      (wld1.w.Written = true ∨ validStatusCode (asApiError err).1.StatusCode = true) →
      errEncoderMiddleware debug enc
          (fun e => Stage.seq (first e) (Stage.seq (abortStage e err) (rest e))) wld
        = ((errEncoder.abort { enc := enc, debug := debug } wld1 err).1, none) ∧
      recoveryMiddleware onPanic
          (errEncoderMiddleware debug enc
            (fun e => Stage.seq (first e) (Stage.seq (abortStage e err) (rest e)))) wld
        = ((errEncoder.abort { enc := enc, debug := debug } wld1 err).1, none)) ∧
    (∀ (first rest : errEncoder → Stage) (err : GoError) (wld1 : World),
      first { enc := enc, debug := debug } wld = (wld1, none) →
      wld1.w.Written = false → wld1.w.wroteHeader = false →
      validStatusCode (asApiError err).1.StatusCode = false →
      errEncoderMiddleware debug enc
          (fun e => Stage.seq (first e) (Stage.seq (abortStage e err) (rest e))) wld
        = (wld1.logAt (abortLogLvl err) (abortError debug err).Message (abortLogDetails err),
           some (invalidWriteHeaderCode (asApiError err).1.StatusCode)) ∧
      recoveryMiddleware onPanic
          (errEncoderMiddleware debug enc
            (fun e => Stage.seq (first e) (Stage.seq (abortStage e err) (rest e)))) wld
        = onPanic (invalidWriteHeaderCode (asApiError err).1.StatusCode)
            (wld1.logAt (abortLogLvl err) (abortError debug err).Message
              (abortLogDetails err))) ∧
    (∀ (below : errEncoder → Stage) (wld1 : World),
      below { enc := enc, debug := debug } wld = (wld1, some Panic.abort) →
      errEncoderMiddleware debug enc below wld = (wld1, none) ∧
      recoveryMiddleware onPanic (errEncoderMiddleware debug enc below) wld = (wld1, none)) ∧
    (∀ (below : errEncoder → Stage) (wld1 : World) (p : Panic), p ≠ Panic.abort →
      below { enc := enc, debug := debug } wld = (wld1, some p) →
      errEncoderMiddleware debug enc below wld = (wld1, some p) ∧
      recoveryMiddleware onPanic (errEncoderMiddleware debug enc below) wld
        = onPanic p wld1) := by
  have habs : ∀ (below : errEncoder → Stage) (wld1 : World),
      below { enc := enc, debug := debug } wld = (wld1, some Panic.abort) →
      errEncoderMiddleware debug enc below wld = (wld1, none) ∧
      recoveryMiddleware onPanic (errEncoderMiddleware debug enc below) wld
        = (wld1, none) := by
    intro below wld1 h
    have h1 := errEncoderMiddleware_abort debug enc below wld wld1 h
    exact ⟨h1, recoveryMiddleware_quiet onPanic _ wld wld1 h1⟩
  have hother : ∀ (below : errEncoder → Stage) (wld1 : World) (p : Panic), p ≠ Panic.abort →
      below { enc := enc, debug := debug } wld = (wld1, some p) →
      errEncoderMiddleware debug enc below wld = (wld1, some p) ∧
      recoveryMiddleware onPanic (errEncoderMiddleware debug enc below) wld
        = onPanic p wld1 := by
    intro below wld1 p hp h
    have h1 := errEncoderMiddleware_other debug enc below wld wld1 p hp h
    exact ⟨h1, recoveryMiddleware_panic onPanic _ wld wld1 p h1⟩
  refine ⟨?_, ?_, ?_, habs, hother⟩
  · intro e err rest
    refine ⟨abortStage_seq e err rest wld, ?_, Abort_invalid e wld err⟩
    intro h
    refine ⟨abort_returns e wld err h, Abort_signal e wld err h, ?_⟩
    rw [abortStage_seq, Abort_signal e wld err h]
  · intro first rest err wld1 hfirst h
    apply habs
    simp only [Stage.seq, hfirst]
    rw [← Stage.seq, abortStage_seq, Abort_signal _ wld1 err h]
  · intro first rest err wld1 hfirst hw hh hs
    apply hother _ _ _ (invalidWriteHeaderCode_ne_abort _)
    simp only [Stage.seq, hfirst]
    rw [← Stage.seq, abortStage_seq, Abort_invalid _ wld1 err hw hh hs]

/-- C12, amended, on a fresh world, with the default recovery handler
around the abort controller and a handler that aborts with a 403 error: the
call raises the `abort` signal, the pipeline returns normally, status 403 is
written and the only log entry is the warning of `abort`. -/
theorem C12_abort_signal_absorbed_witness :
    validStatusCode (asApiError (GoError.api (Error.mk 0 403 "denied".toList none))).1.StatusCode
      = true ∧
    (errEncoder.Abort { enc := Encoder.encoderFunc okEncoder, debug := false } World.fresh
      (GoError.api (Error.mk 0 403 "denied".toList none))).2 = Panic.abort ∧
    defaultRecoveryMiddleware false sampleFrames okEncoder
        (errEncoderMiddleware false (Encoder.encoderFunc okEncoder) abortingHandler)
        World.fresh
      = ({ w := { status := 403, body := "ok".toList, contentType := [],
                  wroteHeader := true },
           log := [LogEntry.mk Lvl.warn "denied".toList []],
           calls := [Payload.apiError (Error.mk 0 403 "denied".toList none)],
           decodes := [] }, none) :=
  have h := C12_abort_signal_absorbed false (Encoder.encoderFunc okEncoder)
    (defaultRecoveryHandler false sampleFrames okEncoder) World.fresh
  ⟨rfl,
   congrArg Prod.snd (((h.1 { enc := Encoder.encoderFunc okEncoder, debug := false }
      (GoError.api (Error.mk 0 403 "denied".toList none)) (fun w => (w, none))).2.1
      (Or.inr rfl)).2.1),
   (h.2.2.2.1 abortingHandler
      { w := { status := 403, body := "ok".toList, contentType := [], wroteHeader := true },
        log := [LogEntry.mk Lvl.warn "denied".toList []],
        calls := [Payload.apiError (Error.mk 0 403 "denied".toList none)],
        decodes := [] } rfl).2⟩

/-! ## C13: fault recovery -/

/-- What the default recovery handler does with a fault raised below the
abort controller by a handler that panics with `cause`: the fault is
absorbed, one critical entry and one debug entry per frame are logged, and the
response is written by `http.Error` with code 500 in debug mode and by the
JSON encoder alone, with no `WriteHeader`, outside debug mode. -/
theorem recovery_fault_effects (debugMode : Bool) (frames : List Str)
    (jsonEncoder : RawEncoder) (enc : Encoder) (cause : Str) (wld : World) :
    defaultRecoveryMiddleware debugMode frames jsonEncoder
        (errEncoderMiddleware debugMode enc (fun _ w => (w, some (Panic.other cause)))) wld
      = defaultRecoveryHandler debugMode frames jsonEncoder (Panic.other cause) wld ∧
    (defaultRecoveryHandler debugMode frames jsonEncoder (Panic.other cause) wld).2 = none ∧
    (defaultRecoveryHandler debugMode frames jsonEncoder (Panic.other cause) wld).1.log
      = wld.log ++ LogEntry.mk Lvl.crit "handler crashed".toList
          [("panic".toList, Val.str cause), ("stack".toList, Val.str (formatTrace frames))]
        :: frames.map (fun fr => LogEntry.mk Lvl.debug fr [("panic".toList, Val.str cause)]) ∧
    (debugMode = true →
      (defaultRecoveryHandler debugMode frames jsonEncoder (Panic.other cause) wld).1.w.status
        = 500 ∧
      (defaultRecoveryHandler debugMode frames jsonEncoder (Panic.other cause) wld).1.calls
        = wld.calls) ∧
    (debugMode = false →
      (defaultRecoveryHandler debugMode frames jsonEncoder (Panic.other cause) wld).1.calls
        = wld.calls ++ [Payload.apiError
            (Error.mk 0 500 "Internal Server Error".toList none)]) := by
  have hlog : ∀ (fs : List Str) (w : World),
      (fs.foldl (fun w fr => w.logAt Lvl.debug fr [("panic".toList, Val.str cause)]) w).log
        = w.log ++ fs.map
            (fun fr => LogEntry.mk Lvl.debug fr [("panic".toList, Val.str cause)]) ∧
      (fs.foldl (fun w fr => w.logAt Lvl.debug fr [("panic".toList, Val.str cause)]) w).calls
        = w.calls ∧
      (fs.foldl (fun w fr => w.logAt Lvl.debug fr [("panic".toList, Val.str cause)]) w).w
        = w.w := by
    intro fs
    induction fs with
    | nil => intro w; simp
    | cons fr fs ih =>
      intro w
      simp only [List.foldl_cons, List.map_cons]
      obtain ⟨h1, h2, h3⟩ := ih (w.logAt Lvl.debug fr [("panic".toList, Val.str cause)])
      rw [h1, h2, h3]
      simp [World.logAt]
  have hhttp : ∀ (w : World) (msg : Str), httpError w msg 500
      = (World.mk
          (((w.setContentType "text/plain; charset=utf-8".toList).writeHeader 500).w.Write
            (msg ++ "\n".toList)) w.log w.calls w.decodes, none) := by
    intro w msg
    unfold httpError
    rw [callWriteHeader_ok (w.setContentType "text/plain; charset=utf-8".toList) 500
      (Or.inr rfl)]
    rfl
  obtain ⟨h1, h2, h3⟩ := hlog frames (wld.logAt Lvl.crit "handler crashed".toList
    [("panic".toList, Val.str cause), ("stack".toList, Val.str (formatTrace frames))])
  refine ⟨by simp [defaultRecoveryMiddleware, recoveryMiddleware, errEncoderMiddleware],
    ?_, ?_, ?_, ?_⟩
  · cases debugMode <;> simp [defaultRecoveryHandler, hhttp]
  · cases debugMode
    · simp only [defaultRecoveryHandler, Panic.text, Encoder.Encode]
      simp only [Bool.false_eq_true, if_false]
      rw [h1]
      simp [World.logAt]
    · simp only [defaultRecoveryHandler, Panic.text, hhttp, World.setContentType,
        World.writeHeader, if_true]
      rw [h1]
      simp [World.logAt]
  · intro hd
    subst hd
    simp only [defaultRecoveryHandler, Panic.text, hhttp, World.setContentType,
      World.writeHeader, if_true, ResponseWriter.Write, ResponseWriter.Written]
    rw [h2]
    simp [World.logAt]
  · intro hd
    subst hd
    have hst : StatusText 500 = "Internal Server Error".toList := rfl
    simp only [defaultRecoveryHandler, Panic.text, Encoder.Encode, hst]
    simp only [Bool.false_eq_true, if_false]
    rw [h2]
    simp [World.logAt]

/-- C13 at its failing input: an endpoint outside debug mode, a fresh
response and a handler that panics with `boom`. The fault is absorbed, one
critical entry is logged and the encoder is invoked on the plain 500 `*Error`,
but no header is written before the body, so the recorded HTTP status is 200
and not 500. In debug mode the same fault gives status 500 and the cause and
stack as the body. -/
theorem C13_recovery_status_200 :
    defaultRecoveryMiddleware false sampleFrames okEncoder
        (errEncoderMiddleware false (Encoder.encoderFunc okEncoder) crashingHandler)
        World.fresh
      = ({ w := { status := 200, body := "ok".toList, contentType := [],
                  wroteHeader := true },
           log := [LogEntry.mk Lvl.crit "handler crashed".toList
                     [("panic".toList, Val.str "boom".toList),
                      ("stack".toList, Val.str "[main.handler martini.Invoke]".toList)],
                   LogEntry.mk Lvl.debug "main.handler".toList
                     [("panic".toList, Val.str "boom".toList)],
                   LogEntry.mk Lvl.debug "martini.Invoke".toList
                     [("panic".toList, Val.str "boom".toList)]],
           calls := [Payload.apiError (Error.mk 0 500 "Internal Server Error".toList none)],
           decodes := [] }, none) ∧
    (defaultRecoveryMiddleware true sampleFrames okEncoder
        (errEncoderMiddleware true (Encoder.encoderFunc okEncoder) crashingHandler)
        World.fresh).1.w
      = { status := 500,
          body := "panic: boom\n\nmain.handler\nmartini.Invoke\n".toList,
          contentType := "text/plain; charset=utf-8".toList, wroteHeader := true } :=
  ⟨rfl, rfl⟩

end Olive
